import Mathlib

/-!
Shallow embedding of `move-ir-to-bytecode/src/context.rs`: the interning
pools, the compiled-dependency views, the compilation `Context`, and the
pool materializer.  Rust `HashMap`s are modelled as association lists
(`ainsert` replaces an existing binding in place, otherwise appends, which
matches `HashMap::insert`); `&mut self` methods become explicit
state-passing functions returning the updated `Context` together with an
`Except` result; `bail!` sites become constructors of `CompileErr`;
`assert!`/`unwrap` panics are modelled by the distinguished outcome
`CompileErr.panicAssert` (for `Result`-returning code) or `Option.none`
(for the materializer).  Machine integers (`u16` table indices) are
modelled as `Nat` with the explicit `TABLE_MAX_SIZE` ceiling check that the
source performs before every insertion.
-/

set_option maxHeartbeats 1000000

/-- Identifiers are modelled from the spec as opaque strings; the
`move_core_types::identifier` validation is outside this slice. -/
abbrev Identifier := String

/-- Account addresses, modelled from the spec as opaque values with
decidable equality. -/
abbrev AccountAddress := Nat

/-- Module name (`ModuleName` newtype over an identifier in the IR ast). -/
abbrev ModuleName := String

/-- Name of the distinguished `Self` module alias
(`ModuleName::module_self()`). -/
def ModuleName.module_self : ModuleName := "Self"

/-- Struct / enum name (`DataTypeName`). -/
abbrev DataTypeName := String

/-- Function name (`FunctionName`). -/
abbrev FunctionName := String

/-- Named-constant name (`ConstantName`). -/
abbrev ConstantName := String

/-- Field name (`Field_`). -/
abbrev FieldName := String

/-- Enum variant name (`VariantName`). -/
abbrev VariantName := String

/-- Block label (`BlockLabel_`). -/
abbrev BlockLabel := String

/-- Ability sets are consumed as opaque metadata (spec glossary), modelled
as an opaque value with decidable equality. -/
abbrev AbilitySet := Nat

/-- Type-parameter declaration of a data type (`DataTypeTyParameter`):
opaque constraint/phantom metadata. -/
abbrev DataTypeTyParameter := Nat

/-- Globally unique identity of a module: (address, module name). -/
structure ModuleIdent where
  address : AccountAddress
  name : ModuleName
deriving DecidableEq, Repr

/-- Interned reference to a module: address-pool index + name-pool index. -/
structure ModuleHandle where
  address : Nat
  name : Nat
deriving DecidableEq, Repr

/-- Externally visible shape of a struct/enum type: module handle index,
name index, ability set and type parameters. -/
structure DataTypeHandle where
  module : Nat
  name : Nat
  abilities : AbilitySet
  type_parameters : List DataTypeTyParameter
deriving DecidableEq, Repr

/-- Recursive encoding of a type expression (`SignatureToken`). -/
inductive SignatureToken where
  | Bool
  | U8
  | U16
  | U32
  | U64
  | U128
  | U256
  | Address
  | Signer
  | Vector (t : SignatureToken)
  | Reference (t : SignatureToken)
  | MutableReference (t : SignatureToken)
  | TypeParameter (i : Nat)
  | DataType (i : Nat)
  | DataTypeInstantiation (i : Nat) (args : List SignatureToken)
deriving Repr

/- Boolean structural equality on signature tokens (the `Eq` derive on the
Rust type), defined mutually with its list version because the inductive is
nested. -/
mutual
def tokBeq : SignatureToken → SignatureToken → Bool
  | .Bool, .Bool => true
  | .U8, .U8 => true
  | .U16, .U16 => true
  | .U32, .U32 => true
  | .U64, .U64 => true
  | .U128, .U128 => true
  | .U256, .U256 => true
  | .Address, .Address => true
  | .Signer, .Signer => true
  | .Vector a, .Vector b => tokBeq a b
  | .Reference a, .Reference b => tokBeq a b
  | .MutableReference a, .MutableReference b => tokBeq a b
  | .TypeParameter i, .TypeParameter j => i == j
  | .DataType i, .DataType j => i == j
  | .DataTypeInstantiation i as, .DataTypeInstantiation j bs =>
    i == j && tokListBeq as bs
  | _, _ => false

def tokListBeq : List SignatureToken → List SignatureToken → Bool
  | [], [] => true
  | a :: as, b :: bs => tokBeq a b && tokListBeq as bs
  | _, _ => false
end

/- Identity traversal of a signature token; its generated induction
principle is the nested-induction scheme used throughout. -/
mutual
def tokId : SignatureToken → SignatureToken
  | .Bool => .Bool
  | .U8 => .U8
  | .U16 => .U16
  | .U32 => .U32
  | .U64 => .U64
  | .U128 => .U128
  | .U256 => .U256
  | .Address => .Address
  | .Signer => .Signer
  | .Vector t => .Vector (tokId t)
  | .Reference t => .Reference (tokId t)
  | .MutableReference t => .MutableReference (tokId t)
  | .TypeParameter i => .TypeParameter i
  | .DataType i => .DataType i
  | .DataTypeInstantiation i args => .DataTypeInstantiation i (tokIdList args)

def tokIdList : List SignatureToken → List SignatureToken
  | [] => []
  | t :: ts => tokId t :: tokIdList ts
end

/-- Boolean token equality agrees with propositional equality. -/
theorem tokBeq_iff : ∀ a b, tokBeq a b = true ↔ a = b :=
  tokId.induct (fun a => ∀ b, tokBeq a b = true ↔ a = b)
    (fun as => ∀ bs, tokListBeq as bs = true ↔ as = bs)
    (by intro b; cases b <;> simp [tokBeq])
    (by intro b; cases b <;> simp [tokBeq])
    (by intro b; cases b <;> simp [tokBeq])
    (by intro b; cases b <;> simp [tokBeq])
    (by intro b; cases b <;> simp [tokBeq])
    (by intro b; cases b <;> simp [tokBeq])
    (by intro b; cases b <;> simp [tokBeq])
    (by intro b; cases b <;> simp [tokBeq])
    (by intro b; cases b <;> simp [tokBeq])
    (by intro t ih b; cases b <;> simp [tokBeq, ih])
    (by intro t ih b; cases b <;> simp [tokBeq, ih])
    (by intro t ih b; cases b <;> simp [tokBeq, ih])
    (by intro i b; cases b <;> simp [tokBeq])
    (by intro i b; cases b <;> simp [tokBeq])
    (by intro i args ih b; cases b <;> simp [tokBeq, ih])
    (by intro bs; cases bs <;> simp [tokListBeq])
    (by intro t ts iht ihts bs; cases bs <;> simp [tokListBeq, iht, ihts])

instance : DecidableEq SignatureToken := fun a b =>
  decidable_of_iff (tokBeq a b = true) (tokBeq_iff a b)

/-- Ordered sequence of signature tokens (`Signature(Vec<SignatureToken>)`). -/
abbrev Signature := List SignatureToken

/-- Function handle: module handle index, name index, parameter- and
return-signature indices, type-parameter constraints. -/
structure FunctionHandle where
  module : Nat
  name : Nat
  parameters : Nat
  return_ : Nat
  type_parameters : List AbilitySet
deriving DecidableEq, Repr

/-- Unresolved parameter/return/type-parameter shape of a function
(`FunctionSignature`). -/
structure FunctionSignature where
  return_ : List SignatureToken
  parameters : List SignatureToken
  type_parameters : List AbilitySet
deriving Repr

instance : DecidableEq FunctionSignature := fun a b =>
  decidable_of_iff
    (a.return_ = b.return_ ∧ a.parameters = b.parameters ∧
      a.type_parameters = b.type_parameters)
    (by cases a; cases b; simp)

/-- Field handle: owning struct definition index + field position. -/
structure FieldHandle where
  owner : Nat
  field : Nat
deriving DecidableEq, Repr

/-- Struct definition instantiation. -/
structure StructDefInstantiation where
  def_ : Nat
  type_parameters : Nat
deriving DecidableEq, Repr

/-- Enum definition instantiation. -/
structure EnumDefInstantiation where
  def_ : Nat
  type_parameters : Nat
deriving DecidableEq, Repr

/-- Function instantiation. -/
structure FunctionInstantiation where
  handle : Nat
  type_parameters : Nat
deriving DecidableEq, Repr

/-- Field instantiation. -/
structure FieldInstantiation where
  handle : Nat
  type_parameters : Nat
deriving DecidableEq, Repr

/-- Constants are interned as opaque values (type + serialized bytes in the
binary format, outside this slice). -/
abbrev Constant := Nat

/-- Qualified reference to a struct/enum: module alias + type name
(`QualifiedDataTypeIdent`). -/
structure QualifiedDataTypeIdent where
  module : ModuleName
  name : DataTypeName
deriving DecidableEq, Repr

/-- Distinct failure outcomes of the context/view operations; each
constructor corresponds to one `bail!`/`format_err!` site in the source,
and `panicAssert` models `assert!` and `unwrap` panics. -/
inductive CompileErr where
  | tableOverflow
  | duplicateDependency (m : ModuleIdent)
  | missingImport (m : ModuleIdent)
  | unboundModuleAlias (m : ModuleName)
  | unboundStruct (s : QualifiedDataTypeIdent)
  | unboundFunction (m : ModuleName) (f : FunctionName)
  | malformedDependency
  | dependencyNotProvided (m : ModuleIdent)
  | tooManyStructDefinitions (s : DataTypeName)
  | tooManyFunctions (m : ModuleName) (f : FunctionName)
  | missingConstant (c : ConstantName)
  | unboundField (f : FieldName)
  | unboundVariant (v : VariantName)
  | missingStructDefinition (s : DataTypeName)
  | missingEnumDefinition (s : DataTypeName)
  | panicAssert
deriving DecidableEq, Repr

/-- Association-list lookup (model of `HashMap::get`). -/
def alookup {κ ν : Type} [DecidableEq κ] : List (κ × ν) → κ → Option ν
  | [], _ => none
  | (k', v) :: rest, k => if k' = k then some v else alookup rest k

/-- Association-list insert (model of `HashMap::insert`): replaces an
existing binding in place, otherwise appends. -/
def ainsert {κ ν : Type} [DecidableEq κ] : List (κ × ν) → κ → ν → List (κ × ν)
  | [], k, v => [(k, v)]
  | (k', v') :: rest, k, v =>
    if k' = k then (k, v) :: rest else (k', v') :: ainsert rest k v

/-- Interning pool: a map from values to their dense `TableIndex`, modelled
as an association list in insertion order. -/
abbrev Pool (α : Type) := List (α × Nat)

/-- Maximum number of entries of any table (`u16::max_value() as usize`). -/
def TABLE_MAX_SIZE : Nat := 65535

/-- Lookup of a value's index in a pool (model of `HashMap::contains_key` +
`get` on the pool maps). -/
def poolLookup {α : Type} [DecidableEq α] : Pool α → α → Option Nat
  | [], _ => none
  | (k', i) :: rest, k => if k' = k then some i else poolLookup rest k

/-- Core interning step (`get_or_add_item_macro` / `get_or_add_item` /
`get_or_add_item_ref`): return the existing index for an equal item, fail
with a table overflow once the pool already holds `TABLE_MAX_SIZE` entries,
otherwise append the item at the next sequential index.  The (possibly
updated) pool is returned alongside the result. -/
def get_or_add_item {α : Type} [DecidableEq α] (m : Pool α) (k : α) :
    Pool α × Except CompileErr Nat :=
  match poolLookup m k with
  | some i => (m, .ok i)
  | none =>
    if TABLE_MAX_SIZE ≤ m.length then (m, .error .tableOverflow)
    else (m ++ [(k, m.length)], .ok m.length)

/-- Repeated interning of the same value, returning the final pool and the
list of indices handed out (used to state idempotent interning). -/
def repeat_get_or_add {α : Type} [DecidableEq α] (p : Pool α) (v : α) :
    Nat → Pool α × Except CompileErr (List Nat)
  | 0 => (p, .ok [])
  | n + 1 =>
    match get_or_add_item p v with
    | (p', .ok i) =>
      match repeat_get_or_add p' v n with
      | (p'', .ok is) => (p'', .ok (i :: is))
      | (p'', .error e) => (p'', .error e)
    | (p', .error e) => (p', .error e)

/-- Successive interning of a list of values, returning the final pool and
the list of indices handed out (used to state the overflow behaviour). -/
def insert_all {α : Type} [DecidableEq α] (p : Pool α) :
    List α → Pool α × Except CompileErr (List Nat)
  | [] => (p, .ok [])
  | k :: ks =>
    match get_or_add_item p k with
    | (p', .ok i) =>
      match insert_all p' ks with
      | (p'', .ok is) => (p'', .ok (i :: is))
      | (p'', .error e) => (p'', .error e)
    | (p', .error e) => (p', .error e)

/-- Already-compiled dependency module: the pool sections of the binary
format that the dependency view reads, plus the module's own self-handle
index (`CompiledModule` as consumed by this slice). -/
structure CompiledModule where
  module_handles : List ModuleHandle
  data_type_handles : List DataTypeHandle
  function_handles : List FunctionHandle
  identifiers : List Identifier
  address_identifiers : List AccountAddress
  signatures : List Signature
  self_module_handle_idx : Nat
deriving Repr

/-- Identifier-pool access (`identifier_at`); out-of-range access panics in
the source and is modelled by a default, only exercised under the
well-formedness hypotheses of the theorems below. -/
def CompiledModule.identifier_at (m : CompiledModule) (i : Nat) : Identifier :=
  m.identifiers.getD i ""

/-- Module-handle-pool access (`module_handle_at`), defaulted like
`identifier_at`. -/
def CompiledModule.module_handle_at (m : CompiledModule) (i : Nat) : ModuleHandle :=
  m.module_handles.getD i ⟨0, 0⟩

/-- Well-formedness of a compiled module: every handle and signature index
is in range. -/
def CompiledModule.wf (m : CompiledModule) : Prop :=
  m.self_module_handle_idx < m.module_handles.length ∧
  (∀ mh ∈ m.module_handles,
    mh.address < m.address_identifiers.length ∧ mh.name < m.identifiers.length) ∧
  (∀ sh ∈ m.data_type_handles,
    sh.module < m.module_handles.length ∧ sh.name < m.identifiers.length) ∧
  (∀ fh ∈ m.function_handles,
    fh.name < m.identifiers.length ∧ fh.parameters < m.signatures.length ∧
      fh.return_ < m.signatures.length)

/-- Read-only projection over one compiled dependency
(`CompiledDependencyView`). -/
structure CompiledDependencyView where
  structs : Pool (Identifier × Identifier)
  functions : List (Identifier × Nat)
  module_pool : List ModuleHandle
  data_type_pool : List DataTypeHandle
  function_pool : List FunctionHandle
  identifiers : List Identifier
  address_identifiers : List AccountAddress
  signature_pool : List Signature
deriving Repr

/-- Pairing of list elements with their positions (`iter().enumerate()`). -/
def enumFrom {α : Type} (i : Nat) : List α → List (Nat × α)
  | [] => []
  | a :: as => (i, a) :: enumFrom (i + 1) as

/-- Construction of the `structs` index of a dependency view: every data
type handle is keyed by (declaring module name, type name) and interned in
pool order, so the assigned index is the handle's own position. -/
def buildStructs (dep : CompiledModule) :
    List DataTypeHandle → Pool (Identifier × Identifier) →
    Except CompileErr (Pool (Identifier × Identifier))
  | [], acc => .ok acc
  | shandle :: rest, acc =>
    let mhandle := dep.module_handle_at shandle.module
    let mname := dep.identifier_at mhandle.name
    let sname := dep.identifier_at shandle.name
    match get_or_add_item acc (mname, sname) with
    | (acc', .ok _) => buildStructs dep rest acc'
    | (_, .error e) => .error e

/-- Construction of the `functions` index of a dependency view: keep only
handles whose module field equals the dependency's own self-handle, keyed
by function name, valued by position in the full function-handle pool. -/
def buildFunctions (dep : CompiledModule) :
    List (Nat × FunctionHandle) → List (Identifier × Nat) →
    List (Identifier × Nat)
  | [], acc => acc
  | (idx, fhandle) :: rest, acc =>
    if fhandle.module = dep.self_module_handle_idx then
      buildFunctions dep rest (ainsert acc (dep.identifier_at fhandle.name) idx)
    else
      buildFunctions dep rest acc

/-- Dependency-view construction (`CompiledDependencyView::new`). -/
def CompiledDependencyView.new (dep : CompiledModule) :
    Except CompileErr CompiledDependencyView :=
  match buildStructs dep dep.data_type_handles [] with
  | .error e => .error e
  | .ok structs =>
    .ok
      { structs := structs
        functions := buildFunctions dep (enumFrom 0 dep.function_handles) []
        module_pool := dep.module_handles
        data_type_pool := dep.data_type_handles
        function_pool := dep.function_handles
        identifiers := dep.identifiers
        address_identifiers := dep.address_identifiers
        signature_pool := dep.signatures }

/-- Reverse lookup from a foreign data-type-handle index to the owning
module identity and type name (`source_struct_info`); the source asserts
that the owning module is not `Self`, modelled as absence. -/
def CompiledDependencyView.source_struct_info (v : CompiledDependencyView)
    (idx : Nat) : Option (ModuleIdent × DataTypeName) := do
  let handle ← v.data_type_pool[idx]?
  let module_handle ← v.module_pool[handle.module]?
  let address ← v.address_identifiers[module_handle.address]?
  let module ← v.identifiers[module_handle.name]?
  if module = ModuleName.module_self then none
  else
    let name ← v.identifiers[handle.name]?
    some (⟨address, module⟩, name)

/-- Name-based lookup of an exported type's handle (`data_type_handle`). -/
def CompiledDependencyView.data_type_handle (v : CompiledDependencyView)
    (module : ModuleName) (name : DataTypeName) : Option DataTypeHandle :=
  (poolLookup v.structs (module, name)).bind fun idx => v.data_type_pool[idx]?

/-- Name-based lookup of a defined function's signature
(`function_signature`); the direct signature-pool indexing of the source
panics out of range and is modelled by a default, only exercised under
well-formedness. -/
def CompiledDependencyView.function_signature (v : CompiledDependencyView)
    (name : FunctionName) : Option FunctionSignature :=
  (alookup v.functions name).bind fun idx =>
    (v.function_pool[idx]?).map fun fh =>
      { parameters := v.signature_pool.getD fh.parameters []
        return_ := v.signature_pool.getD fh.return_ []
        type_parameters := fh.type_parameters }

/-- Compilation context for a single compilation unit (`Context`).  The
dependency store is modelled as the map from module identity to its view:
both the `Borrowed` and the `Stored` variant of `CompiledDependency` only
ever yield their view, so the ownership distinction is invisible to the
operations modelled here.  The source-map bookkeeping is out of scope. -/
structure Context where
  dependencies : List (ModuleIdent × CompiledDependencyView)
  aliases : List (ModuleIdent × ModuleName)
  modules : List (ModuleName × (ModuleIdent × ModuleHandle))
  structs : List (QualifiedDataTypeIdent × DataTypeHandle)
  struct_defs : List (DataTypeName × Nat)
  enum_defs : List (DataTypeName × Nat)
  named_constants : List (ConstantName × Nat)
  labels : Pool BlockLabel
  fields : List ((Nat × FieldName) × (Nat × SignatureToken × Nat))
  function_handles : List ((ModuleName × FunctionName) × (FunctionHandle × Nat))
  function_signatures : List ((ModuleName × FunctionName) × FunctionSignature)
  variants : List ((Nat × VariantName) × (Nat × Nat × Nat))
  module_handles : Pool ModuleHandle
  data_type_handles : Pool DataTypeHandle
  signatures : Pool Signature
  identifiers : Pool Identifier
  address_identifiers : Pool AccountAddress
  constant_pool : Pool Constant
  field_handles : Pool FieldHandle
  struct_instantiations : Pool StructDefInstantiation
  enum_instantiations : Pool EnumDefInstantiation
  function_instantiations : Pool FunctionInstantiation
  field_instantiations : Pool FieldInstantiation
  current_function_index : Nat

/-- Fresh context over a dependency set (`Context::new`); every table
starts empty. -/
def Context.new (dependencies : List (ModuleIdent × CompiledDependencyView)) :
    Context where
  dependencies := dependencies
  aliases := []
  modules := []
  structs := []
  struct_defs := []
  enum_defs := []
  named_constants := []
  labels := []
  fields := []
  function_handles := []
  function_signatures := []
  variants := []
  module_handles := []
  data_type_handles := []
  signatures := []
  identifiers := []
  address_identifiers := []
  constant_pool := []
  field_handles := []
  struct_instantiations := []
  enum_instantiations := []
  function_instantiations := []
  field_instantiations := []
  current_function_index := 0

/-- Hand the dependency store back (`take_dependencies`). -/
def Context.take_dependencies (ctx : Context) :
    Context × List (ModuleIdent × CompiledDependencyView) :=
  ({ ctx with dependencies := [] }, ctx.dependencies)

/-- Restore a dependency store (`restore_dependencies`); the source asserts
that the current store is empty. -/
def Context.restore_dependencies (ctx : Context)
    (dependencies : List (ModuleIdent × CompiledDependencyView)) :
    Context × Except CompileErr Unit :=
  if ctx.dependencies.isEmpty then
    ({ ctx with dependencies := dependencies }, .ok ())
  else (ctx, .error .panicAssert)

/-- Register one more borrowed dependency (`add_compiled_dependency`);
a second dependency for the same module identity is rejected. -/
def Context.add_compiled_dependency (ctx : Context) (ident : ModuleIdent)
    (view : CompiledDependencyView) : Context × Except CompileErr Unit :=
  match alookup ctx.dependencies ident with
  | none =>
    ({ ctx with dependencies := ainsert ctx.dependencies ident view }, .ok ())
  | some _ => (ctx, .error (.duplicateDependency ident))

/-- Alias lookup for a module identity (`module_alias`). -/
def Context.module_alias (ctx : Context) (ident : ModuleIdent) :
    Except CompileErr ModuleName :=
  match alookup ctx.aliases ident with
  | none => .error (.missingImport ident)
  | some name => .ok name

/-- Handle lookup for a module alias (`module_handle`). -/
def Context.module_handle (ctx : Context) (module_name : ModuleName) :
    Except CompileErr ModuleHandle :=
  match alookup ctx.modules module_name with
  | none => .error (.unboundModuleAlias module_name)
  | some (_, mh) => .ok mh

/-- Identity lookup for a module alias (`module_ident`). -/
def Context.module_ident (ctx : Context) (module_name : ModuleName) :
    Except CompileErr ModuleIdent :=
  match alookup ctx.modules module_name with
  | none => .error (.unboundModuleAlias module_name)
  | some (id, _) => .ok id

/-- Module-handle pool index for an alias (`module_handle_index`); the
`unwrap` on the pool lookup is a panic site. -/
def Context.module_handle_index (ctx : Context) (module_name : ModuleName) :
    Except CompileErr Nat :=
  match ctx.module_handle module_name with
  | .error e => .error e
  | .ok mh =>
    match poolLookup ctx.module_handles mh with
    | some i => .ok i
    | none => .error .panicAssert

/-- Identifier pool interning (`identifier_index`). -/
def Context.identifier_index (ctx : Context) (s : Identifier) :
    Context × Except CompileErr Nat :=
  match get_or_add_item ctx.identifiers s with
  | (p, r) => ({ ctx with identifiers := p }, r)

/-- Address pool interning (`address_index`). -/
def Context.address_index (ctx : Context) (addr : AccountAddress) :
    Context × Except CompileErr Nat :=
  match get_or_add_item ctx.address_identifiers addr with
  | (p, r) => ({ ctx with address_identifiers := p }, r)

/-- Constant pool interning (`constant_index`). -/
def Context.constant_index (ctx : Context) (constant : Constant) :
    Context × Except CompileErr Nat :=
  match get_or_add_item ctx.constant_pool constant with
  | (p, r) => ({ ctx with constant_pool := p }, r)

/-- Named-constant lookup (`named_constant_index`). -/
def Context.named_constant_index (ctx : Context) (constant : ConstantName) :
    Except CompileErr Nat :=
  match alookup ctx.named_constants constant with
  | none => .error (.missingConstant constant)
  | some idx => .ok idx

/-- Signature pool interning (`signature_index`). -/
def Context.signature_index (ctx : Context) (sig : Signature) :
    Context × Except CompileErr Nat :=
  match get_or_add_item ctx.signatures sig with
  | (p, r) => ({ ctx with signatures := p }, r)

/-- Field-handle pool interning (`field_handle_index`). -/
def Context.field_handle_index (ctx : Context) (owner : Nat) (field : Nat) :
    Context × Except CompileErr Nat :=
  match get_or_add_item ctx.field_handles ⟨owner, field⟩ with
  | (p, r) => ({ ctx with field_handles := p }, r)

/-- Struct-instantiation pool interning (`struct_instantiation_index`). -/
def Context.struct_instantiation_index (ctx : Context) (def_ : Nat)
    (type_parameters : Nat) : Context × Except CompileErr Nat :=
  match get_or_add_item ctx.struct_instantiations ⟨def_, type_parameters⟩ with
  | (p, r) => ({ ctx with struct_instantiations := p }, r)

/-- Enum-instantiation pool interning (`enum_instantiation_index`). -/
def Context.enum_instantiation_index (ctx : Context) (def_ : Nat)
    (type_parameters : Nat) : Context × Except CompileErr Nat :=
  match get_or_add_item ctx.enum_instantiations ⟨def_, type_parameters⟩ with
  | (p, r) => ({ ctx with enum_instantiations := p }, r)

/-- Function-instantiation pool interning (`function_instantiation_index`). -/
def Context.function_instantiation_index (ctx : Context) (handle : Nat)
    (type_parameters : Nat) : Context × Except CompileErr Nat :=
  match get_or_add_item ctx.function_instantiations ⟨handle, type_parameters⟩ with
  | (p, r) => ({ ctx with function_instantiations := p }, r)

/-- Field-instantiation pool interning (`field_instantiation_index`). -/
def Context.field_instantiation_index (ctx : Context) (handle : Nat)
    (type_parameters : Nat) : Context × Except CompileErr Nat :=
  match get_or_add_item ctx.field_instantiations ⟨handle, type_parameters⟩ with
  | (p, r) => ({ ctx with field_instantiations := p }, r)

/-- Temporary offset for a block label (`label_index`): labels are interned
like any pool, so equal labels share one offset and fresh labels get the
next sequential one. -/
def Context.label_index (ctx : Context) (label : BlockLabel) :
    Context × Except CompileErr Nat :=
  match get_or_add_item ctx.labels label with
  | (p, r) => ({ ctx with labels := p }, r)

/-- Remapping from every temporary label offset to its actual code offset
(`build_index_remapping`): the label table is taken out of the context
(left empty for the next function) and each entry of `label_to_index` is
translated through it; the source indexes `labels[&lbl]`, which panics for
an unregistered label, modelled as `none`. -/
def remapAll (labels : Pool BlockLabel) :
    List (BlockLabel × Nat) → Option (List (Nat × Nat))
  | [] => some []
  | (lbl, actual_idx) :: rest =>
    match poolLookup labels lbl with
    | none => none
    | some tmp => (remapAll labels rest).map ((tmp, actual_idx) :: ·)

/-- State-passing wrapper of the remapping step: clears the label table. -/
def Context.build_index_remapping (ctx : Context)
    (label_to_index : List (BlockLabel × Nat)) :
    Context × Option (List (Nat × Nat)) :=
  ({ ctx with labels := [] }, remapAll ctx.labels label_to_index)

/-- Bookkeeping of the current function definition index
(`set_function_index`). -/
def Context.set_function_index (ctx : Context) (index : Nat) : Context :=
  { ctx with current_function_index := index }

/-- Friend declaration (`declare_friend`): interns address and name and
returns the module handle (not added to the handle pool). -/
def Context.declare_friend (ctx : Context) (id : ModuleIdent) :
    Context × Except CompileErr ModuleHandle :=
  match ctx.address_index id.address with
  | (ctx, .error e) => (ctx, .error e)
  | (ctx, .ok address) =>
    match ctx.identifier_index id.name with
    | (ctx, .error e) => (ctx, .error e)
    | (ctx, .ok name) => (ctx, .ok ⟨address, name⟩)

/-- Import declaration (`declare_import`): records the alias (duplicate
aliases overwrite silently), interns address and name, records the module
handle under the alias and interns it. -/
def Context.declare_import (ctx : Context) (id : ModuleIdent)
    (aliasName : ModuleName) : Context × Except CompileErr Nat :=
  let ctx := { ctx with aliases := ainsert ctx.aliases id aliasName }
  match ctx.address_index id.address with
  | (ctx, .error e) => (ctx, .error e)
  | (ctx, .ok address) =>
    match ctx.identifier_index id.name with
    | (ctx, .error e) => (ctx, .error e)
    | (ctx, .ok name) =>
      let mh : ModuleHandle := ⟨address, name⟩
      let ctx := { ctx with modules := ainsert ctx.modules aliasName (id, mh) }
      match get_or_add_item ctx.module_handles mh with
      | (p, r) => ({ ctx with module_handles := p }, r)

/-- Local struct/enum handle declaration
(`declare_data_type_handle_index_with_abilities`): resolves the alias's
module handle index, interns the type name, records the handle under the
qualified name and interns it into the data-type-handle pool. -/
def Context.declare_data_type_handle_index_with_abilities (ctx : Context)
    (sname : QualifiedDataTypeIdent) (abilities : AbilitySet)
    (type_parameters : List DataTypeTyParameter) :
    Context × Except CompileErr Nat :=
  match ctx.module_handle_index sname.module with
  | .error e => (ctx, .error e)
  | .ok module =>
    match ctx.identifier_index sname.name with
    | (ctx, .error e) => (ctx, .error e)
    | (ctx, .ok name) =>
      let handle : DataTypeHandle := ⟨module, name, abilities, type_parameters⟩
      let ctx := { ctx with structs := ainsert ctx.structs sname handle }
      match get_or_add_item ctx.data_type_handles handle with
      | (p, r) => ({ ctx with data_type_handles := p }, r)

/-- Public wrapper (`declare_data_type_handle_index`). -/
def Context.declare_data_type_handle_index (ctx : Context)
    (sname : QualifiedDataTypeIdent) (abilities : AbilitySet)
    (type_parameters : List DataTypeTyParameter) :
    Context × Except CompileErr Nat :=
  ctx.declare_data_type_handle_index_with_abilities sname abilities type_parameters

/-- Struct definition declaration (`declare_struct_definition_index`):
first declaration gets the next dense index, re-declaration returns the
existing one. -/
def Context.declare_struct_definition_index (ctx : Context) (s : DataTypeName) :
    Context × Except CompileErr Nat :=
  let idx := ctx.struct_defs.length
  if TABLE_MAX_SIZE < idx then (ctx, .error (.tooManyStructDefinitions s))
  else
    match alookup ctx.struct_defs s with
    | some i => (ctx, .ok i)
    | none => ({ ctx with struct_defs := ctx.struct_defs ++ [(s, idx)] }, .ok idx)

/-- Enum definition declaration (`declare_enum_definition_index`). -/
def Context.declare_enum_definition_index (ctx : Context) (s : DataTypeName) :
    Context × Except CompileErr Nat :=
  let idx := ctx.enum_defs.length
  if TABLE_MAX_SIZE < idx then (ctx, .error (.tooManyStructDefinitions s))
  else
    match alookup ctx.enum_defs s with
    | some i => (ctx, .ok i)
    | none => ({ ctx with enum_defs := ctx.enum_defs ++ [(s, idx)] }, .ok idx)

/-- Function declaration (`declare_function`): resolves the module alias,
interns the function name, records the signature under (module, name)
before interning the parameter/return signatures, then registers the
handle; a repeated declaration reuses the previously assigned handle
index. -/
def Context.declare_function (ctx : Context) (mname : ModuleName)
    (fname : FunctionName) (signature : FunctionSignature) :
    Context × Except CompileErr Unit :=
  let m_f := (mname, fname)
  match ctx.module_handle_index mname with
  | .error e => (ctx, .error e)
  | .ok module =>
    match ctx.identifier_index fname with
    | (ctx, .error e) => (ctx, .error e)
    | (ctx, .ok name) =>
      let ctx :=
        { ctx with function_signatures := ainsert ctx.function_signatures m_f signature }
      match get_or_add_item ctx.signatures signature.parameters with
      | (sp, .error e) => ({ ctx with signatures := sp }, .error e)
      | (sp, .ok params_idx) =>
        let ctx := { ctx with signatures := sp }
        match get_or_add_item ctx.signatures signature.return_ with
        | (sp, .error e) => ({ ctx with signatures := sp }, .error e)
        | (sp, .ok return_idx) =>
          let ctx := { ctx with signatures := sp }
          let handle : FunctionHandle :=
            ⟨module, name, params_idx, return_idx, signature.type_parameters⟩
          let hidx :=
            match alookup ctx.function_handles m_f with
            | none => ctx.function_handles.length
            | some (_, idx) => idx
          if TABLE_MAX_SIZE < hidx then
            (ctx, .error (.tooManyFunctions mname fname))
          else
            ({ ctx with
                function_handles := ainsert ctx.function_handles m_f (handle, hidx) },
              .ok ())

/-- Named-constant declaration (`declare_constant`). -/
def Context.declare_constant (ctx : Context) (name : ConstantName)
    (constant : Constant) : Context × Except CompileErr Unit :=
  match ctx.constant_index constant with
  | (ctx, .error e) => (ctx, .error e)
  | (ctx, .ok idx) =>
    ({ ctx with named_constants := ainsert ctx.named_constants name idx }, .ok ())

/-- Field declaration (`declare_field`): first registration wins. -/
def Context.declare_field (ctx : Context) (s : Nat) (sd_idx : Nat)
    (f : FieldName) (token : SignatureToken) (decl_order : Nat) : Context :=
  match alookup ctx.fields (s, f) with
  | some _ => ctx
  | none =>
    { ctx with fields := ctx.fields ++ [((s, f), (sd_idx, token, decl_order))] }

/-- Variant declaration (`declare_variant`): first registration wins. -/
def Context.declare_variant (ctx : Context) (s : Nat) (ed_idx : Nat)
    (v : VariantName) (field_count : Nat) (tag : Nat) : Context :=
  match alookup ctx.variants (s, v) with
  | some _ => ctx
  | none =>
    { ctx with variants := ctx.variants ++ [((s, v), (ed_idx, field_count, tag))] }

/-- Dependency-store lookup (`dependency`): both store variants yield the
view. -/
def Context.dependency (ctx : Context) (m : ModuleIdent) :
    Except CompileErr CompiledDependencyView :=
  match alookup ctx.dependencies m with
  | none => .error (.dependencyNotProvided m)
  | some view => .ok view

/-- Foreign type shape lookup (`dep_data_type_handle`). -/
def Context.dep_data_type_handle (ctx : Context) (s : QualifiedDataTypeIdent) :
    Except CompileErr (AbilitySet × List DataTypeTyParameter) :=
  if s.module = ModuleName.module_self then .error (.unboundStruct s)
  else
    match ctx.module_ident s.module with
    | .error e => .error e
    | .ok mident =>
      match ctx.dependency mident with
      | .error e => .error e
      | .ok dep =>
        match dep.data_type_handle mident.name s.name with
        | none => .error (.unboundStruct s)
        | some shandle => .ok (shandle.abilities, shandle.type_parameters)

/-- Struct-handle resolution (`data_type_handle_index`): an already-local
type returns its interned index without mutation; the first lookup of a
foreign type imports it via the dependency view. -/
def Context.data_type_handle_index (ctx : Context) (s : QualifiedDataTypeIdent) :
    Context × Except CompileErr Nat :=
  match alookup ctx.structs s with
  | some sh =>
    match poolLookup ctx.data_type_handles sh with
    | some i => (ctx, .ok i)
    | none => (ctx, .error .panicAssert)
  | none =>
    match ctx.dep_data_type_handle s with
    | .error e => (ctx, .error e)
    | .ok (abilities, type_parameters) =>
      ctx.declare_data_type_handle_index_with_abilities s abilities type_parameters

/- Recursive re-indexing of a foreign signature token
(`reindex_signature_token`): primitives and type parameters pass through,
containers recurse, and a named type is resolved through the dependency
view and the local alias table back to a local handle index. -/
mutual
def Context.reindex_signature_token (ctx : Context) (dep : ModuleIdent) :
    SignatureToken → Context × Except CompileErr SignatureToken
  | .Bool => (ctx, .ok .Bool)
  | .U8 => (ctx, .ok .U8)
  | .U16 => (ctx, .ok .U16)
  | .U32 => (ctx, .ok .U32)
  | .U64 => (ctx, .ok .U64)
  | .U128 => (ctx, .ok .U128)
  | .U256 => (ctx, .ok .U256)
  | .Address => (ctx, .ok .Address)
  | .Signer => (ctx, .ok .Signer)
  | .TypeParameter i => (ctx, .ok (.TypeParameter i))
  | .Vector inner =>
    match ctx.reindex_signature_token dep inner with
    | (c, .ok correct_inner) => (c, .ok (.Vector correct_inner))
    | (c, .error e) => (c, .error e)
  | .Reference inner =>
    match ctx.reindex_signature_token dep inner with
    | (c, .ok correct_inner) => (c, .ok (.Reference correct_inner))
    | (c, .error e) => (c, .error e)
  | .MutableReference inner =>
    match ctx.reindex_signature_token dep inner with
    | (c, .ok correct_inner) => (c, .ok (.MutableReference correct_inner))
    | (c, .error e) => (c, .error e)
  | .DataType orig_sh_idx =>
    match ctx.dependency dep with
    | .error e => (ctx, .error e)
    | .ok dep_info =>
      match dep_info.source_struct_info orig_sh_idx with
      | none => (ctx, .error .malformedDependency)
      | some (mident, sname) =>
        match ctx.module_alias mident with
        | .error e => (ctx, .error e)
        | .ok module_name =>
          match ctx.data_type_handle_index ⟨module_name, sname⟩ with
          | (c, .ok correct_sh_idx) => (c, .ok (.DataType correct_sh_idx))
          | (c, .error e) => (c, .error e)
  | .DataTypeInstantiation orig_sh_idx inners =>
    match ctx.dependency dep with
    | .error e => (ctx, .error e)
    | .ok dep_info =>
      match dep_info.source_struct_info orig_sh_idx with
      | none => (ctx, .error .malformedDependency)
      | some (mident, sname) =>
        match ctx.module_alias mident with
        | .error e => (ctx, .error e)
        | .ok module_name =>
          match ctx.data_type_handle_index ⟨module_name, sname⟩ with
          | (c, .error e) => (c, .error e)
          | (c, .ok correct_sh_idx) =>
            match c.reindex_signature_token_list dep inners with
            | (c', .ok correct_inners) =>
              (c', .ok (.DataTypeInstantiation correct_sh_idx correct_inners))
            | (c', .error e) => (c', .error e)

def Context.reindex_signature_token_list (ctx : Context) (dep : ModuleIdent) :
    List SignatureToken → Context × Except CompileErr (List SignatureToken)
  | [] => (ctx, .ok [])
  | t :: ts =>
    match ctx.reindex_signature_token dep t with
    | (c, .error e) => (c, .error e)
    | (c, .ok t') =>
      match c.reindex_signature_token_list dep ts with
      | (c', .error e) => (c', .error e)
      | (c', .ok ts') => (c', .ok (t' :: ts'))
end

/-- Signature re-indexing (`reindex_function_signature`): return tokens
first, then parameter tokens, type parameters unchanged. -/
def Context.reindex_function_signature (ctx : Context) (dep : ModuleIdent)
    (orig : FunctionSignature) : Context × Except CompileErr FunctionSignature :=
  match ctx.reindex_signature_token_list dep orig.return_ with
  | (c, .error e) => (c, .error e)
  | (c, .ok return_) =>
    match c.reindex_signature_token_list dep orig.parameters with
    | (c', .error e) => (c', .error e)
    | (c', .ok parameters) =>
      (c', .ok ⟨return_, parameters, orig.type_parameters⟩)

/-- Foreign function signature lookup + re-indexing
(`dep_function_signature`). -/
def Context.dep_function_signature (ctx : Context) (m : ModuleName)
    (f : FunctionName) : Context × Except CompileErr FunctionSignature :=
  if m = ModuleName.module_self then (ctx, .error (.unboundFunction m f))
  else
    match ctx.module_ident m with
    | .error e => (ctx, .error e)
    | .ok mident =>
      match ctx.dependency mident with
      | .error e => (ctx, .error e)
      | .ok dep =>
        match dep.function_signature f with
        | none => (ctx, .error (.unboundFunction m f))
        | some sig => ctx.reindex_function_signature mident sig

/-- Import-on-demand of a function (`ensure_function_declared`); the
source asserts that the handle and signature tables agree on the presence
of the key before and after. -/
def Context.ensure_function_declared (ctx : Context) (m : ModuleName)
    (f : FunctionName) : Context × Except CompileErr Unit :=
  let m_f := (m, f)
  if (alookup ctx.function_handles m_f).isSome then (ctx, .ok ())
  else if (alookup ctx.function_signatures m_f).isSome then
    (ctx, .error .panicAssert)
  else
    match ctx.dep_function_signature m f with
    | (c, .error e) => (c, .error e)
    | (c, .ok sig) =>
      match c.declare_function m f sig with
      | (c', .error e) => (c', .error e)
      | (c', .ok ()) =>
        if (alookup c'.function_handles m_f).isSome &&
            (alookup c'.function_signatures m_f).isSome then (c', .ok ())
        else (c', .error .panicAssert)

/-- Function-handle resolution (`function_handle`): declares the function
from its dependency on first use, then returns the recorded handle and
index. -/
def Context.function_handle (ctx : Context) (m : ModuleName) (f : FunctionName) :
    Context × Except CompileErr (FunctionHandle × Nat) :=
  match ctx.ensure_function_declared m f with
  | (c, .error e) => (c, .error e)
  | (c, .ok ()) =>
    match alookup c.function_handles (m, f) with
    | some hi => (c, .ok hi)
    | none => (c, .error .panicAssert)


/-- Slot-filling step of pool materialization (`materialize_pool`): each
(item, index) pair is written into a vector of empty slots; the source
asserts that the slot is still empty, and an out-of-range index panics,
both modelled as `none`. -/
def fillPool {α : Type} (options : List (Option α)) :
    List (α × Nat) → Option (List (Option α))
  | [] => some options
  | (item, idx) :: rest =>
    match options[idx]? with
    | some none => fillPool (options.set idx (some item)) rest
    | _ => none

/-- Final unwrap of the filled slots (`opt.unwrap()` over the vector);
an unfilled slot panics, modelled as `none`. -/
def allSome {α : Type} : List (Option α) → Option (List α)
  | [] => some []
  | none :: _ => none
  | some a :: rest => (allSome rest).map (a :: ·)

/-- Pool materialization (`materialize_pool`): place every interned value
at its assigned index in a vector of the given size. -/
def materialize_pool {α : Type} (size : Nat) (items : List (α × Nat)) :
    Option (List α) :=
  (fillPool (List.replicate size none) items).bind allSome

/-- Materialization of a simple pool (`materialize_map`). -/
def materialize_map {α : Type} (m : Pool α) : Option (List α) :=
  materialize_pool m.length m

/-- Finished ordered vectors, one per pool kind (`MaterializedPools`). -/
structure MaterializedPools where
  module_handles : List ModuleHandle
  data_type_handles : List DataTypeHandle
  function_handles : List FunctionHandle
  field_handles : List FieldHandle
  struct_def_instantiations : List StructDefInstantiation
  enum_def_instantiations : List EnumDefInstantiation
  function_instantiations : List FunctionInstantiation
  field_instantiations : List FieldInstantiation
  signatures : List Signature
  identifiers : List Identifier
  address_identifiers : List AccountAddress
  constant_pool : List Constant

/-- Terminal materialization step (`materialize_pools`): asserts that the
function-handle and function-signature tables have equal cardinality, then
materializes every pool; any density violation is an assertion failure,
modelled as `none`. -/
def Context.materialize_pools (ctx : Context) : Option MaterializedPools :=
  if ctx.function_handles.length ≠ ctx.function_signatures.length then none
  else do
    let function_handles ← materialize_pool ctx.function_handles.length
      (ctx.function_handles.map fun e => (e.2.1, e.2.2))
    let module_handles ← materialize_map ctx.module_handles
    let data_type_handles ← materialize_map ctx.data_type_handles
    let field_handles ← materialize_map ctx.field_handles
    let signatures ← materialize_map ctx.signatures
    let identifiers ← materialize_map ctx.identifiers
    let address_identifiers ← materialize_map ctx.address_identifiers
    let constant_pool ← materialize_map ctx.constant_pool
    let function_instantiations ← materialize_map ctx.function_instantiations
    let struct_def_instantiations ← materialize_map ctx.struct_instantiations
    let enum_def_instantiations ← materialize_map ctx.enum_instantiations
    let field_instantiations ← materialize_map ctx.field_instantiations
    some
      { module_handles := module_handles
        data_type_handles := data_type_handles
        function_handles := function_handles
        field_handles := field_handles
        struct_def_instantiations := struct_def_instantiations
        enum_def_instantiations := enum_def_instantiations
        function_instantiations := function_instantiations
        field_instantiations := field_instantiations
        signatures := signatures
        identifiers := identifiers
        address_identifiers := address_identifiers
        constant_pool := constant_pool }

/- Shape of a signature token with named-type indices erased: two tokens
have equal `erase` images exactly when they are structurally isomorphic
with only named-type indices substituted. -/
mutual
def erase : SignatureToken → SignatureToken
  | .Bool => .Bool
  | .U8 => .U8
  | .U16 => .U16
  | .U32 => .U32
  | .U64 => .U64
  | .U128 => .U128
  | .U256 => .U256
  | .Address => .Address
  | .Signer => .Signer
  | .Vector t => .Vector (erase t)
  | .Reference t => .Reference (erase t)
  | .MutableReference t => .MutableReference (erase t)
  | .TypeParameter i => .TypeParameter i
  | .DataType _ => .DataType 0
  | .DataTypeInstantiation _ args => .DataTypeInstantiation 0 (eraseList args)

def eraseList : List SignatureToken → List SignatureToken
  | [] => []
  | t :: ts => erase t :: eraseList ts
end

/-- Simple tokens: the primitive scalars and type parameters, which
re-indexing passes through unchanged. -/
def isSimpleToken : SignatureToken → Bool
  | .Bool | .U8 | .U16 | .U32 | .U64 | .U128 | .U256 | .Address | .Signer
  | .TypeParameter _ => true
  | _ => false

/-- Concrete module identity used by the witness scenarios: module `D` at
address 7. -/
def identD : ModuleIdent := ⟨7, "D"⟩

/-- Concrete dependency module for the witness scenarios: defines struct
`S` and function `g` (whose parameter signature is `Vector<Reference<S>>`),
and merely references function `h` of a foreign module `E`. -/
def depD : CompiledModule where
  module_handles := [⟨0, 0⟩, ⟨0, 4⟩]
  data_type_handles := [⟨0, 1, 3, [6]⟩]
  function_handles := [⟨0, 2, 1, 0, []⟩, ⟨1, 3, 0, 0, []⟩]
  identifiers := ["D", "S", "g", "h", "E"]
  address_identifiers := [7]
  signatures := [[], [.Vector (.Reference (.DataType 0))]]
  self_module_handle_idx := 0

/-- Dependency view of `depD` (shown below to be what
`CompiledDependencyView.new` produces). -/
def depViewD : CompiledDependencyView where
  structs := [(("D", "S"), 0)]
  functions := [("g", 0)]
  module_pool := depD.module_handles
  data_type_pool := depD.data_type_handles
  function_pool := depD.function_handles
  identifiers := depD.identifiers
  address_identifiers := depD.address_identifiers
  signature_pool := depD.signatures

/-- Witness context: `depD` supplied as a dependency and imported under
alias `X`. -/
def ctxD : Context :=
  ((Context.new [(identD, depViewD)]).declare_import identD "X").1

/-- Witness context for the missing-dependency scenario: the alias `X` is
bound to `identD`, but no dependency was supplied. -/
def ctxMissing : Context :=
  ((Context.new []).declare_import identD "X").1

/-- Concrete module identity for the overflow witness. -/
def identM : ModuleIdent := ⟨5, "M"⟩

/-- Pool of `j` pairwise-distinct one-token signatures starting at
type-parameter `m`, each at its own index. -/
def sigPoolFrom : Nat → Nat → Pool Signature
  | _, 0 => []
  | m, j + 1 => ([SignatureToken.TypeParameter m], m) :: sigPoolFrom (m + 1) j

/-- Witness context whose signature pool is full: module `M` is bound,
the function name `f` is already interned, and the signature pool already
holds `TABLE_MAX_SIZE` entries none of which is `[U8]`. -/
def ctxOverflow : Context :=
  { Context.new [] with
    modules := [("M", (identM, ⟨0, 0⟩))]
    module_handles := [(⟨0, 0⟩, 0)]
    identifiers := [("f", 0)]
    signatures := sigPoolFrom 0 65535 }

/-- Signature used by the overflow witness: one `U8` parameter. -/
def sigU8 : FunctionSignature := ⟨[], [.U8], []⟩

/-- Witness context with module `M` imported under its own name. -/
def ctxM : Context := ((Context.new []).declare_import identM "M").1

/-- Contexts reachable from `Context.new` by any sequence of successful
context operations. -/
inductive Reachable : Context → Prop where
  | init (deps : List (ModuleIdent × CompiledDependencyView)) :
      Reachable (Context.new deps)
  | declare_import {ctx id al ctx' r} : Reachable ctx →
      ctx.declare_import id al = (ctx', .ok r) → Reachable ctx'
  | declare_friend {ctx id ctx' r} : Reachable ctx →
      ctx.declare_friend id = (ctx', .ok r) → Reachable ctx'
  | identifier_index {ctx s ctx' r} : Reachable ctx →
      ctx.identifier_index s = (ctx', .ok r) → Reachable ctx'
  | address_index {ctx a ctx' r} : Reachable ctx →
      ctx.address_index a = (ctx', .ok r) → Reachable ctx'
  | constant_index {ctx c ctx' r} : Reachable ctx →
      ctx.constant_index c = (ctx', .ok r) → Reachable ctx'
  | signature_index {ctx sig ctx' r} : Reachable ctx →
      ctx.signature_index sig = (ctx', .ok r) → Reachable ctx'
  | field_handle_index {ctx o f ctx' r} : Reachable ctx →
      ctx.field_handle_index o f = (ctx', .ok r) → Reachable ctx'
  | struct_instantiation_index {ctx d t ctx' r} : Reachable ctx →
      ctx.struct_instantiation_index d t = (ctx', .ok r) → Reachable ctx'
  | enum_instantiation_index {ctx d t ctx' r} : Reachable ctx →
      ctx.enum_instantiation_index d t = (ctx', .ok r) → Reachable ctx'
  | function_instantiation_index {ctx h t ctx' r} : Reachable ctx →
      ctx.function_instantiation_index h t = (ctx', .ok r) → Reachable ctx'
  | field_instantiation_index {ctx h t ctx' r} : Reachable ctx →
      ctx.field_instantiation_index h t = (ctx', .ok r) → Reachable ctx'
  | label_index {ctx l ctx' r} : Reachable ctx →
      ctx.label_index l = (ctx', .ok r) → Reachable ctx'
  | declare_struct_definition_index {ctx s ctx' r} : Reachable ctx →
      ctx.declare_struct_definition_index s = (ctx', .ok r) → Reachable ctx'
  | declare_enum_definition_index {ctx s ctx' r} : Reachable ctx →
      ctx.declare_enum_definition_index s = (ctx', .ok r) → Reachable ctx'
  | declare_function {ctx m f sig ctx'} : Reachable ctx →
      ctx.declare_function m f sig = (ctx', .ok ()) → Reachable ctx'
  | declare_constant {ctx n c ctx'} : Reachable ctx →
      ctx.declare_constant n c = (ctx', .ok ()) → Reachable ctx'
  | declare_field {ctx s sd f tok ord} : Reachable ctx →
      Reachable (ctx.declare_field s sd f tok ord)
  | declare_variant {ctx s ed v fc tag} : Reachable ctx →
      Reachable (ctx.declare_variant s ed v fc tag)
  | declare_data_type_handle_index {ctx s ab tp ctx' r} : Reachable ctx →
      ctx.declare_data_type_handle_index s ab tp = (ctx', .ok r) →
      Reachable ctx'
  | data_type_handle_index {ctx s ctx' r} : Reachable ctx →
      ctx.data_type_handle_index s = (ctx', .ok r) → Reachable ctx'
  | function_handle {ctx m f ctx' r} : Reachable ctx →
      ctx.function_handle m f = (ctx', .ok r) → Reachable ctx'
  | build_index_remapping {ctx lti} : Reachable ctx →
      Reachable (ctx.build_index_remapping lti).1
  | set_function_index {ctx i} : Reachable ctx →
      Reachable (ctx.set_function_index i)
  | take_dependencies {ctx} : Reachable ctx →
      Reachable ctx.take_dependencies.1
  | restore_dependencies {ctx deps ctx'} : Reachable ctx →
      ctx.restore_dependencies deps = (ctx', .ok ()) → Reachable ctx'
  | add_compiled_dependency {ctx id v ctx'} : Reachable ctx →
      ctx.add_compiled_dependency id v = (ctx', .ok ()) → Reachable ctx'

/-- Density invariant of a simple pool maintained by the interning
discipline: the assigned indices are exactly `0 .. size-1` in insertion
order. -/
def PoolInv {α : Type} (p : Pool α) : Prop :=
  p.map Prod.snd = List.range p.length

/-- Invariants of the context maintained by every successful operation:
all simple pools are dense, the function-handle indices are dense, and the
function-handle and function-signature tables bind exactly the same keys
in the same order. -/
structure CtxInv (ctx : Context) : Prop where
  module_handles : PoolInv ctx.module_handles
  data_type_handles : PoolInv ctx.data_type_handles
  signatures : PoolInv ctx.signatures
  identifiers : PoolInv ctx.identifiers
  address_identifiers : PoolInv ctx.address_identifiers
  constant_pool : PoolInv ctx.constant_pool
  field_handles : PoolInv ctx.field_handles
  struct_instantiations : PoolInv ctx.struct_instantiations
  enum_instantiations : PoolInv ctx.enum_instantiations
  function_instantiations : PoolInv ctx.function_instantiations
  field_instantiations : PoolInv ctx.field_instantiations
  labels : PoolInv ctx.labels
  fn_idx : ctx.function_handles.map (fun e => e.2.2) =
    List.range ctx.function_handles.length
  fn_keys : ctx.function_handles.map Prod.fst =
    ctx.function_signatures.map Prod.fst

/-- Correctness of one materialized pool: the vector has one slot per
interned value and holds each value at its assigned index. -/
def MaterializedCorrectly {α : Type} (m : Pool α) (v : List α) : Prop :=
  v.length = m.length ∧ ∀ p ∈ m, v[p.2]? = some p.1

theorem alookup_ainsert_self {κ ν : Type} [DecidableEq κ]
    (m : List (κ × ν)) (k : κ) (v : ν) : alookup (ainsert m k v) k = some v := by
  induction m with
  | nil => simp [ainsert, alookup]
  | cons hd tl ih =>
    by_cases h : hd.1 = k <;> simp [ainsert, alookup, h, ih]

theorem ainsert_of_alookup_none {κ ν : Type} [DecidableEq κ]
    {m : List (κ × ν)} {k : κ} (v : ν) (h : alookup m k = none) :
    ainsert m k v = m ++ [(k, v)] := by
  induction m with
  | nil => simp [ainsert]
  | cons hd tl ih =>
    by_cases hk : hd.1 = k
    · simp [alookup, hk] at h
    · simp only [alookup, hk, if_neg] at h
      simp [ainsert, hk, ih h]

theorem ainsert_map_fst_of_alookup_some {κ ν : Type} [DecidableEq κ]
    {m : List (κ × ν)} {k : κ} {v0 : ν} (v : ν) (h : alookup m k = some v0) :
    (ainsert m k v).map Prod.fst = m.map Prod.fst := by
  induction m with
  | nil => simp [alookup] at h
  | cons hd tl ih =>
    by_cases hk : hd.1 = k
    · simp [ainsert, hk]
    · simp only [alookup, hk, if_neg] at h
      simp [ainsert, hk, ih h]

theorem alookup_of_map_fst_eq {κ ν μ : Type} [DecidableEq κ]
    {m : List (κ × ν)} {m' : List (κ × μ)}
    (h : m.map Prod.fst = m'.map Prod.fst) (k : κ) :
    (alookup m k).isSome = (alookup m' k).isSome := by
  induction m generalizing m' with
  | nil =>
    cases m' with
    | nil => rfl
    | cons hd tl => simp at h
  | cons hd tl ih =>
    cases m' with
    | nil => simp at h
    | cons hd' tl' =>
      simp only [List.map_cons, List.cons.injEq] at h
      by_cases hk : hd.1 = k
      · simp [alookup, hk, h.1 ▸ hk]
      · have hk' : hd'.1 ≠ k := h.1 ▸ hk
        simp [alookup, hk, hk', ih h.2]

theorem poolLookup_none_of_not_mem {α : Type} [DecidableEq α]
    {p : Pool α} {k : α} (h : ∀ q ∈ p, q.1 ≠ k) : poolLookup p k = none := by
  induction p with
  | nil => rfl
  | cons hd tl ih =>
    have h1 : hd.1 ≠ k := h hd (by simp)
    simp only [poolLookup, h1, if_neg]
    exact ih fun q hq => h q (by simp [hq])

theorem poolLookup_append_self {α : Type} [DecidableEq α]
    {p : Pool α} {k : α} (i : Nat) (h : poolLookup p k = none) :
    poolLookup (p ++ [(k, i)]) k = some i := by
  induction p with
  | nil => simp [poolLookup]
  | cons hd tl ih =>
    by_cases hk : hd.1 = k
    · simp [poolLookup, hk] at h
    · simp only [poolLookup, hk, if_neg] at h
      simp [poolLookup, hk, ih h]

theorem get_or_add_item_found {α : Type} [DecidableEq α]
    {p : Pool α} {k : α} {i : Nat} (h : poolLookup p k = some i) :
    get_or_add_item p k = (p, .ok i) := by
  simp [get_or_add_item, h]

theorem get_or_add_item_fresh {α : Type} [DecidableEq α]
    {p : Pool α} {k : α} (h : poolLookup p k = none)
    (hlen : p.length < TABLE_MAX_SIZE) :
    get_or_add_item p k = (p ++ [(k, p.length)], .ok p.length) := by
  simp [get_or_add_item, h, Nat.not_le.mpr hlen]

theorem get_or_add_item_full {α : Type} [DecidableEq α]
    {p : Pool α} {k : α} (h : poolLookup p k = none)
    (hlen : TABLE_MAX_SIZE ≤ p.length) :
    get_or_add_item p k = (p, .error .tableOverflow) := by
  simp [get_or_add_item, h, hlen]

theorem get_or_add_item_inv {α : Type} [DecidableEq α]
    {p p' : Pool α} {k : α} {r : Except CompileErr Nat}
    (hinv : PoolInv p) (h : get_or_add_item p k = (p', r)) : PoolInv p' := by
  rcases hp : poolLookup p k with _ | i
  · by_cases hlen : TABLE_MAX_SIZE ≤ p.length
    · rw [get_or_add_item_full hp hlen] at h
      cases h
      exact hinv
    · rw [get_or_add_item_fresh hp (Nat.not_le.mp hlen)] at h
      cases h
      unfold PoolInv at hinv ⊢
      simp [hinv, List.range_succ]
  · rw [get_or_add_item_found hp] at h
    cases h
    exact hinv

theorem get_or_add_item_ok_lookup {α : Type} [DecidableEq α]
    {p p' : Pool α} {k : α} {i : Nat}
    (h : get_or_add_item p k = (p', .ok i)) :
    poolLookup p' k = some i := by
  rcases hp : poolLookup p k with _ | j
  · by_cases hlen : TABLE_MAX_SIZE ≤ p.length
    · rw [get_or_add_item_full hp hlen] at h
      cases h
    · rw [get_or_add_item_fresh hp (Nat.not_le.mp hlen)] at h
      cases h
      exact poolLookup_append_self _ hp
  · rw [get_or_add_item_found hp] at h
    cases h
    exact hp

theorem poolLookup_map_self_of_not_mem {l : List Nat} {k : Nat} (h : k ∉ l) :
    poolLookup (l.map fun i => (i, i)) k = none := by
  apply poolLookup_none_of_not_mem
  intro q hq
  simp only [List.mem_map] at hq
  obtain ⟨a, ha, rfl⟩ := hq
  intro hak
  exact h (hak ▸ ha)

theorem insert_all_range (j : Nat) :
    ∀ m, m + j ≤ TABLE_MAX_SIZE →
    insert_all ((List.range' 0 m).map fun i => (i, i)) (List.range' m j) =
      (((List.range' 0 (m + j)).map fun i => (i, i)), .ok (List.range' m j)) := by
  induction j with
  | zero => intro m _; simp [insert_all]
  | succ j ih =>
    intro m hm
    have hm' : m ∉ List.range' 0 m := by
      intro hmem
      rw [List.mem_range'_1] at hmem
      omega
    have hlen : ((List.range' 0 m).map fun i => (i, i)).length < TABLE_MAX_SIZE := by
      simp only [List.length_map, List.length_range']
      omega
    have hfresh := get_or_add_item_fresh
      (poolLookup_map_self_of_not_mem hm') hlen
    have happend :
        ((List.range' 0 m).map fun i => (i, i)) ++
            [(m, ((List.range' 0 m).map fun i => (i, i)).length)] =
          (List.range' 0 (m + 1)).map fun i => (i, i) := by
      have hc : List.range' 0 (m + 1) = List.range' 0 m ++ [m] := by
        simpa using @List.range'_concat 1 0 m
      simp [hc]
    have hrange : List.range' m (j + 1) = m :: List.range' (m + 1) j := by
      simp [List.range']
    rw [hrange]
    simp only [insert_all, hfresh, happend]
    have := ih (m + 1) (by omega)
    rw [this]
    have harith : m + 1 + j = m + (j + 1) := by omega
    simp [harith]

theorem insert_all_cons_error {α : Type} [DecidableEq α]
    {p p' : Pool α} {k : α} {e : CompileErr}
    (h : get_or_add_item p k = (p', .error e)) (ks : List α) :
    insert_all p (k :: ks) = (p', .error e) := by
  simp [insert_all, h]

theorem insert_all_append_ok {α : Type} [DecidableEq α]
    {p p' : Pool α} {xs : List α} {is : List Nat}
    (h : insert_all p xs = (p', .ok is)) (ys : List α) :
    insert_all p (xs ++ ys) =
      (match insert_all p' ys with
       | (p'', .ok js) => (p'', .ok (is ++ js))
       | (p'', .error e) => (p'', .error e)) := by
  induction xs generalizing p is with
  | nil =>
    simp only [insert_all] at h
    cases h
    rcases hys : insert_all p' ys with ⟨p'', r⟩
    cases r <;> simp [hys]
  | cons x xs ih =>
    rcases hg : get_or_add_item p x with ⟨q, r⟩
    cases r with
    | error e =>
      simp only [insert_all, hg] at h
      simp at h
    | ok i =>
      rcases hrec : insert_all q xs with ⟨q', r'⟩
      cases r' with
      | error e =>
        simp only [insert_all, hg, hrec] at h
        simp at h
      | ok js =>
        simp only [insert_all, hg, hrec] at h
        simp only [Prod.mk.injEq, Except.ok.injEq] at h
        obtain ⟨rfl, rfl⟩ := h
        simp only [List.cons_append, insert_all, hg, List.append_eq]
        rw [ih hrec]
        rcases hys : insert_all q' ys with ⟨p'', r''⟩
        cases r'' <;> simp [hys]

/-- C1 (counterexample): inserting 65536 distinct values into one empty
pool does not succeed — the code's ceiling is `TABLE_MAX_SIZE = 65535`, so
the 65536th distinct insertion already fails with a table overflow,
leaving the pool at 65535 entries. -/
theorem C1_counterexample :
    insert_all ([] : Pool Nat) (List.range' 0 65536) =
      (((List.range' 0 65535).map fun i => (i, i)), .error .tableOverflow) := by
  have h1 : insert_all ([] : Pool Nat) (List.range' 0 65535) =
      (((List.range' 0 65535).map fun i => (i, i)), .ok (List.range' 0 65535)) := by
    simpa using insert_all_range 65535 0 (by norm_num [TABLE_MAX_SIZE])
  have hsplit : List.range' 0 65536 = List.range' 0 65535 ++ [65535] := by
    simpa using @List.range'_concat 1 0 65535
  have hfull : get_or_add_item ((List.range' 0 65535).map fun i => (i, i)) 65535 =
      (((List.range' 0 65535).map fun i => (i, i)), .error .tableOverflow) := by
    apply get_or_add_item_full
    · apply poolLookup_map_self_of_not_mem
      intro hm
      rw [List.mem_range'_1] at hm
      omega
    · simp [TABLE_MAX_SIZE]
  rw [hsplit, insert_all_append_ok h1 [65535], insert_all_cons_error hfull []]

/-- C1 (amended): inserting 65535 distinct values into one empty pool
succeeds, assigning sequential indices 0 through 65534 in insertion order;
the 65536th distinct insertion fails with a table-overflow error and
leaves the pool's contents (hence its size) unchanged. -/
theorem C1_intern_table_overflow :
    insert_all ([] : Pool Nat) (List.range' 0 65535) =
      (((List.range' 0 65535).map fun i => (i, i)), .ok (List.range' 0 65535)) ∧
    get_or_add_item ((List.range' 0 65535).map fun i => (i, i)) 65535 =
      (((List.range' 0 65535).map fun i => (i, i)), .error .tableOverflow) := by
  constructor
  · simpa using insert_all_range 65535 0 (by norm_num [TABLE_MAX_SIZE])
  · apply get_or_add_item_full
    · apply poolLookup_map_self_of_not_mem
      intro hm
      rw [List.mem_range'_1] at hm
      omega
    · simp [TABLE_MAX_SIZE]

theorem repeat_get_or_add_stable {α : Type} [DecidableEq α]
    {q : Pool α} {v : α} {i : Nat} (h : poolLookup q v = some i) :
    ∀ n, repeat_get_or_add q v n = (q, .ok (List.replicate n i)) := by
  intro n
  induction n with
  | zero => simp [repeat_get_or_add]
  | succ n ih =>
    simp [repeat_get_or_add, get_or_add_item_found h, ih, List.replicate_succ]

/-- C5 (counterexample): for a pool already containing the value, the
first `get_or_add` call does not increase the pool's size (it returns the
existing index with no growth), contradicting the claim's "increases
exactly once — on the first call" for every pool and value. -/
theorem C5_counterexample :
    get_or_add_item ([((0 : Nat), 0)] : Pool Nat) 0 = ([(0, 0)], .ok 0) ∧
    ¬ (get_or_add_item ([((0 : Nat), 0)] : Pool Nat) 0).1.length =
        ([((0 : Nat), 0)] : Pool Nat).length + 1 := by
  constructor
  · rfl
  · intro h
    simp [get_or_add_item, poolLookup] at h

/-- C5 (amended): if the first `get_or_add` call for `v` succeeds with
index `i` and pool `p₁`, then every run of `n + 1` equal-valued calls
returns index `i` on every call and ends in pool `p₁` (so the pool never
grows after the first call); the first call grows the pool by exactly one
entry when `v` was not yet present, and leaves the pool unchanged when an
equal value was already present. -/
theorem C5_idempotent_interning {α : Type} [DecidableEq α]
    (p p₁ : Pool α) (v : α) (i : Nat)
    (h : get_or_add_item p v = (p₁, .ok i)) :
    (∀ n, repeat_get_or_add p v (n + 1) = (p₁, .ok (List.replicate (n + 1) i))) ∧
    (poolLookup p v = none → p₁.length = p.length + 1) ∧
    (∀ t, poolLookup p v = some t → p₁ = p ∧ i = t) := by
  have hstable : poolLookup p₁ v = some i := get_or_add_item_ok_lookup h
  refine ⟨?_, ?_, ?_⟩
  · intro n
    simp [repeat_get_or_add, h, repeat_get_or_add_stable hstable n,
      List.replicate_succ]
  · intro hp
    by_cases hlen : TABLE_MAX_SIZE ≤ p.length
    · rw [get_or_add_item_full hp hlen] at h
      cases h
    · rw [get_or_add_item_fresh hp (Nat.not_le.mp hlen)] at h
      cases h
      simp
  · intro t hp
    rw [get_or_add_item_found hp] at h
    cases h
    exact ⟨rfl, rfl⟩

/-- C5 (witness): the amended idempotent-interning theorem applied to the
empty pool of naturals and the value 0. -/
theorem C5_witness :
    get_or_add_item ([] : Pool Nat) 0 = ([(0, 0)], .ok 0) ∧
    repeat_get_or_add ([] : Pool Nat) 0 3 = ([(0, 0)], .ok [0, 0, 0]) ∧
    ([((0 : Nat), 0)] : Pool Nat).length = ([] : Pool Nat).length + 1 :=
  ⟨rfl, (C5_idempotent_interning [] [(0, 0)] 0 0 rfl).1 2,
    (C5_idempotent_interning [] [(0, 0)] 0 0 rfl).2.1 rfl⟩

/-- C7: when alias `m` is bound to module identity `D` but `D` was not
supplied in the dependency set, resolving a not-yet-local type or a
not-yet-declared function through `m` fails with the dependency-missing
error and returns the context completely unchanged. -/
theorem C7_missing_dependency (ctx : Context) (m : ModuleName)
    (D : ModuleIdent) (mh : ModuleHandle) (S : DataTypeName) (f : FunctionName)
    (hmod : alookup ctx.modules m = some (D, mh))
    (hdep : alookup ctx.dependencies D = none)
    (hself : m ≠ ModuleName.module_self) :
    (alookup ctx.structs ⟨m, S⟩ = none →
      ctx.data_type_handle_index ⟨m, S⟩ =
        (ctx, .error (.dependencyNotProvided D))) ∧
    (alookup ctx.function_handles (m, f) = none →
      alookup ctx.function_signatures (m, f) = none →
      ctx.function_handle m f = (ctx, .error (.dependencyNotProvided D))) := by
  constructor
  · intro hstructs
    simp [Context.data_type_handle_index, hstructs, Context.dep_data_type_handle,
      hself, Context.module_ident, hmod, Context.dependency, hdep]
  · intro hfh hfs
    simp [Context.function_handle, Context.ensure_function_declared, hfh, hfs,
      Context.dep_function_signature, hself, Context.module_ident, hmod,
      Context.dependency, hdep]

/-- C7 (witness): the missing-dependency theorem applied to the concrete
context that imports `D` as alias `X` without supplying `D`. -/
theorem C7_witness :
    ctxMissing.data_type_handle_index ⟨"X", "S"⟩ =
      (ctxMissing, .error (.dependencyNotProvided identD)) ∧
    ctxMissing.function_handle "X" "g" =
      (ctxMissing, .error (.dependencyNotProvided identD)) :=
  ⟨(C7_missing_dependency ctxMissing "X" identD ⟨0, 0⟩ "S" "g" (by rfl) (by rfl)
      (by simp [ModuleName.module_self])).1 (by rfl),
    (C7_missing_dependency ctxMissing "X" identD ⟨0, 0⟩ "S" "g" (by rfl) (by rfl)
      (by simp [ModuleName.module_self])).2 (by rfl) (by rfl)⟩

theorem remapAll_total (labels : Pool BlockLabel)
    (lti : List (BlockLabel × Nat))
    (h : ∀ q ∈ lti, (poolLookup labels q.1).isSome) :
    remapAll labels lti =
      some (lti.map fun q => ((poolLookup labels q.1).getD 0, q.2)) := by
  induction lti with
  | nil => rfl
  | cons hd tl ih =>
    obtain ⟨t, ht⟩ := Option.isSome_iff_exists.mp (h hd (by simp))
    have htl := ih fun q hq => h q (by simp [hq])
    simp [remapAll, ht, htl]

/-- C9: `label_index` hands each fresh block label the next sequential
temporary offset and returns the existing offset for an already-registered
label; when every label of `label_to_index` is registered,
`build_index_remapping` is total, maps each label's temporary offset to
its actual code offset, and leaves the label table empty. -/
theorem C9_label_lifecycle :
    (∀ (ctx : Context) (l : BlockLabel),
      poolLookup ctx.labels l = none → ctx.labels.length < TABLE_MAX_SIZE →
      ctx.label_index l =
        ({ ctx with labels := ctx.labels ++ [(l, ctx.labels.length)] },
          .ok ctx.labels.length)) ∧
    (∀ (ctx : Context) (l : BlockLabel) (t : Nat),
      poolLookup ctx.labels l = some t → ctx.label_index l = (ctx, .ok t)) ∧
    (∀ (ctx : Context) (lti : List (BlockLabel × Nat)),
      (∀ q ∈ lti, (poolLookup ctx.labels q.1).isSome) →
      ctx.build_index_remapping lti =
        ({ ctx with labels := [] },
          some (lti.map fun q => ((poolLookup ctx.labels q.1).getD 0, q.2)))) := by
  refine ⟨?_, ?_, ?_⟩
  · intro ctx l hnone hlen
    simp [Context.label_index, get_or_add_item_fresh hnone hlen]
  · intro ctx l t hsome
    simp [Context.label_index, get_or_add_item_found hsome]
  · intro ctx lti h
    simp [Context.build_index_remapping, remapAll_total ctx.labels lti h]

/-- C9 (witness): the label-lifecycle theorem applied to a fresh context,
registering label `a` and remapping it to the actual offset 5. -/
theorem C9_witness :
    (Context.new []).label_index "a" =
      ({ Context.new [] with labels := [("a", 0)] }, .ok 0) ∧
    ({ Context.new [] with labels := [("a", 0)] } : Context).label_index "a" =
      ({ Context.new [] with labels := [("a", 0)] }, .ok 0) ∧
    ({ Context.new [] with labels := [("a", 0)] } : Context).build_index_remapping
        [("a", 5)] =
      ({ Context.new [] with labels := [] }, some [(0, 5)]) :=
  ⟨C9_label_lifecycle.1 (Context.new []) "a" (by rfl) (by norm_num [Context.new, TABLE_MAX_SIZE]),
    C9_label_lifecycle.2.1 { Context.new [] with labels := [("a", 0)] } "a" 0 (by rfl),
    C9_label_lifecycle.2.2 { Context.new [] with labels := [("a", 0)] } [("a", 5)]
      (by intro q hq; simp at hq; cases hq; rfl)⟩

theorem poolLookup_append_left {α : Type} [DecidableEq α]
    {p : Pool α} {k : α} {i : Nat} (q : Pool α)
    (h : poolLookup p k = some i) : poolLookup (p ++ q) k = some i := by
  induction p with
  | nil => simp [poolLookup] at h
  | cons hd tl ih =>
    by_cases hk : hd.1 = k
    · simp only [poolLookup, hk, if_pos] at h ⊢
      exact h
    · simp only [poolLookup, hk, if_neg] at h ⊢
      exact ih h

theorem get_or_add_item_preserves_lookup {α : Type} [DecidableEq α]
    {p p' : Pool α} {k k' : α} {i : Nat} {r : Except CompileErr Nat}
    (h : poolLookup p k = some i) (hg : get_or_add_item p k' = (p', r)) :
    poolLookup p' k = some i := by
  rcases hp : poolLookup p k' with _ | j
  · by_cases hlen : TABLE_MAX_SIZE ≤ p.length
    · rw [get_or_add_item_full hp hlen] at hg
      cases hg
      exact h
    · rw [get_or_add_item_fresh hp (Nat.not_le.mp hlen)] at hg
      cases hg
      exact poolLookup_append_left _ h
  · rw [get_or_add_item_found hp] at hg
    cases hg
    exact h

theorem get_or_add_item_ok_of_room {α : Type} [DecidableEq α]
    {p : Pool α} (k : α) (hlen : p.length < TABLE_MAX_SIZE) :
    ∃ p' i, get_or_add_item p k = (p', .ok i) ∧ p'.length ≤ p.length + 1 := by
  rcases hp : poolLookup p k with _ | j
  · exact ⟨p ++ [(k, p.length)], p.length,
      get_or_add_item_fresh hp hlen, by simp⟩
  · exact ⟨p, j, get_or_add_item_found hp, by omega⟩

theorem ainsert_length_of_some {κ ν : Type} [DecidableEq κ]
    {m : List (κ × ν)} {k : κ} {v0 : ν} (v : ν) (h : alookup m k = some v0) :
    (ainsert m k v).length = m.length := by
  induction m with
  | nil => simp [alookup] at h
  | cons hd tl ih =>
    by_cases hk : hd.1 = k
    · simp [ainsert, hk]
    · simp only [alookup, hk, if_neg] at h
      simp [ainsert, hk, ih h]

/-- Decomposition of a successful `declare_function`: the resulting
context is the input with the name interned, the signature stored, both
signatures interned, and the handle registered under the reused-or-fresh
index. -/
theorem declare_function_ok_decomp {ctx ctx₁ : Context} {M : ModuleName}
    {f : FunctionName} {sig : FunctionSignature}
    (h : ctx.declare_function M f sig = (ctx₁, .ok ())) :
    ∃ mod name idPool pidx sp ridx sp2,
      ctx.module_handle_index M = .ok mod ∧
      get_or_add_item ctx.identifiers f = (idPool, .ok name) ∧
      get_or_add_item ctx.signatures sig.parameters = (sp, .ok pidx) ∧
      get_or_add_item sp sig.return_ = (sp2, .ok ridx) ∧
      (match alookup ctx.function_handles (M, f) with
        | none => ctx.function_handles.length
        | some (_, idx) => idx) ≤ TABLE_MAX_SIZE ∧
      ctx₁ =
        { ctx with
            identifiers := idPool
            function_signatures := ainsert ctx.function_signatures (M, f) sig
            signatures := sp2
            function_handles :=
              ainsert ctx.function_handles (M, f)
                (⟨mod, name, pidx, ridx, sig.type_parameters⟩,
                  match alookup ctx.function_handles (M, f) with
                  | none => ctx.function_handles.length
                  | some (_, idx) => idx) } := by
  unfold Context.declare_function at h
  cases hmod : ctx.module_handle_index M with
  | error e => rw [hmod] at h; simp at h
  | ok mod =>
    rw [hmod] at h
    rcases hid : get_or_add_item ctx.identifiers f with ⟨idPool, rId⟩
    have hid' : ctx.identifier_index f = ({ ctx with identifiers := idPool }, rId) := by
      simp [Context.identifier_index, hid]
    rw [hid'] at h
    cases rId with
    | error e => simp at h
    | ok name =>
      simp only at h
      rcases hp : get_or_add_item ctx.signatures sig.parameters with ⟨sp, rP⟩
      rw [show ({ ctx with identifiers := idPool } : Context).signatures =
        ctx.signatures from rfl] at h
      rw [hp] at h
      cases rP with
      | error e => simp at h
      | ok pidx =>
        simp only at h
        rcases hr : get_or_add_item sp sig.return_ with ⟨sp2, rR⟩
        rw [hr] at h
        cases rR with
        | error e => simp at h
        | ok ridx =>
          simp only at h
          by_cases hmax :
            TABLE_MAX_SIZE <
              (match alookup ctx.function_handles (M, f) with
                | none => ctx.function_handles.length
                | some (_, idx) => idx)
          · rw [if_pos hmax] at h
            simp at h
          · rw [if_neg hmax] at h
            simp only [Prod.mk.injEq] at h
            refine ⟨mod, name, idPool, pidx, sp, ridx, sp2, rfl, rfl, rfl, hr,
              Nat.not_lt.mp hmax, ?_⟩
            exact h.1.symm

/-- C3: declaring function (M, f) twice succeeds and yields exactly one
handle index — the second declaration (with the identical or a different
signature) reuses the index assigned by the first while overwriting the
stored signature; given the first declaration succeeded, a second
declaration is never rejected as a duplicate (it can only fail for want of
signature-pool room, which an identical signature never needs). -/
theorem C3_duplicate_declaration (ctx ctx₁ ctx₂ : Context) (M : ModuleName)
    (f : FunctionName) (sig₁ sig₂ : FunctionSignature)
    (h₁ : ctx.declare_function M f sig₁ = (ctx₁, .ok ()))
    (h₂ : ctx₁.declare_function M f sig₂ = (ctx₂, .ok ())) :
    (∃ hl₁ i hl₂, alookup ctx₁.function_handles (M, f) = some (hl₁, i) ∧
      alookup ctx₂.function_handles (M, f) = some (hl₂, i)) ∧
    alookup ctx₂.function_signatures (M, f) = some sig₂ ∧
    ctx₂.function_handles.length = ctx₁.function_handles.length ∧
    (∀ sig, sig = sig₁ ∨ ctx₁.signatures.length + 2 ≤ TABLE_MAX_SIZE →
      (ctx₁.declare_function M f sig).2 = .ok ()) := by
  obtain ⟨mod, name, idPool, pidx, sp, ridx, sp2, hmod, hid, hp, hr, hmax, hc₁⟩ :=
    declare_function_ok_decomp h₁
  obtain ⟨mod', name', idPool', pidx', sp', ridx', sp2', hmod', hid', hp', hr',
    hmax', hc₂⟩ := declare_function_ok_decomp h₂
  have hA : alookup ctx₁.function_handles (M, f) =
      some (⟨mod, name, pidx, ridx, sig₁.type_parameters⟩,
        match alookup ctx.function_handles (M, f) with
        | none => ctx.function_handles.length
        | some (_, idx) => idx) := by
    rw [hc₁]
    exact alookup_ainsert_self _ _ _
  refine ⟨⟨⟨mod, name, pidx, ridx, sig₁.type_parameters⟩, _,
      ⟨mod', name', pidx', ridx', sig₂.type_parameters⟩, hA, ?_⟩, ?_, ?_, ?_⟩
  · rw [hc₂, hA]
    exact alookup_ainsert_self _ _ _
  · rw [hc₂]
    exact alookup_ainsert_self _ _ _
  · rw [hc₂]
    exact ainsert_length_of_some _ hA
  · intro sig hsig
    have hmod₁ : ctx₁.module_handle_index M = .ok mod := by
      rw [hc₁]; exact hmod
    have hidlk : poolLookup ctx₁.identifiers f = some name := by
      rw [hc₁]; exact get_or_add_item_ok_lookup hid
    have hsig2 : ctx₁.signatures = sp2 := by rw [hc₁]
    have hstep :
        ∃ q1 i1 q2 i2, get_or_add_item ctx₁.signatures sig.parameters =
            (q1, .ok i1) ∧ get_or_add_item q1 sig.return_ = (q2, .ok i2) := by
      rcases hsig with rfl | hroom
      · have hplk : poolLookup sp2 sig.parameters = some pidx :=
          get_or_add_item_preserves_lookup (get_or_add_item_ok_lookup hp) hr
        have hrlk : poolLookup sp2 sig.return_ = some ridx :=
          get_or_add_item_ok_lookup hr
        exact ⟨sp2, pidx, sp2, ridx, by rw [hsig2]; exact get_or_add_item_found hplk,
          get_or_add_item_found hrlk⟩
      · obtain ⟨q1, i1, hok1, hlen1⟩ :=
          get_or_add_item_ok_of_room (p := ctx₁.signatures) sig.parameters
            (by omega)
        obtain ⟨q2, i2, hok2, _⟩ :=
          @get_or_add_item_ok_of_room _ _ q1 sig.return_ (by omega)
        exact ⟨q1, i1, q2, i2, hok1, hok2⟩
    obtain ⟨q1, i1, q2, i2, hok1, hok2⟩ := hstep
    have hidx₁ : get_or_add_item ctx₁.identifiers f = (ctx₁.identifiers, .ok name) :=
      get_or_add_item_found hidlk
    simp only [Context.declare_function, hmod₁, Context.identifier_index, hidx₁,
      hok1, hok2, hA]
    rw [if_neg (Nat.not_lt.mpr hmax)]

/-- C3 (witness): the duplicate-declaration theorem applied to concrete
declarations of `M.f`, first with the empty signature and then with a
different (`U8`-parameter) signature. -/
theorem C3_witness :
    (ctxM.declare_function "M" "f" ⟨[], [], []⟩).2 = .ok () ∧
    alookup ((ctxM.declare_function "M" "f" ⟨[], [], []⟩).1.declare_function "M"
        "f" ⟨[], [.U8], []⟩).1.function_signatures ("M", "f") =
      some ⟨[], [.U8], []⟩ ∧
    ((ctxM.declare_function "M" "f" ⟨[], [], []⟩).1.declare_function "M" "f"
        ⟨[], [.U8], []⟩).1.function_handles.length =
      (ctxM.declare_function "M" "f" ⟨[], [], []⟩).1.function_handles.length :=
  ⟨rfl,
    (C3_duplicate_declaration ctxM _ _ "M" "f" ⟨[], [], []⟩ ⟨[], [.U8], []⟩
      rfl rfl).2.1,
    (C3_duplicate_declaration ctxM _ _ "M" "f" ⟨[], [], []⟩ ⟨[], [.U8], []⟩
      rfl rfl).2.2.1⟩

/-- Decomposition of a successful struct-handle declaration. -/
theorem declare_dth_ok_decomp {ctx ctx₁ : Context} {s : QualifiedDataTypeIdent}
    {ab : AbilitySet} {tp : List DataTypeTyParameter} {i : Nat}
    (h : ctx.declare_data_type_handle_index_with_abilities s ab tp = (ctx₁, .ok i)) :
    ∃ mod name idPool dtPool,
      ctx.module_handle_index s.module = .ok mod ∧
      get_or_add_item ctx.identifiers s.name = (idPool, .ok name) ∧
      get_or_add_item ctx.data_type_handles ⟨mod, name, ab, tp⟩ = (dtPool, .ok i) ∧
      ctx₁ =
        { ctx with
            identifiers := idPool
            structs := ainsert ctx.structs s ⟨mod, name, ab, tp⟩
            data_type_handles := dtPool } := by
  unfold Context.declare_data_type_handle_index_with_abilities at h
  cases hmod : ctx.module_handle_index s.module with
  | error e => rw [hmod] at h; simp at h
  | ok mod =>
    rw [hmod] at h
    rcases hid : get_or_add_item ctx.identifiers s.name with ⟨idPool, rId⟩
    have hid' : ctx.identifier_index s.name =
        ({ ctx with identifiers := idPool }, rId) := by
      simp [Context.identifier_index, hid]
    rw [hid'] at h
    cases rId with
    | error e => simp at h
    | ok name =>
      simp only at h
      rcases hdt : get_or_add_item ctx.data_type_handles ⟨mod, name, ab, tp⟩
        with ⟨dtPool, rD⟩
      rw [show ({ ctx with identifiers := idPool } : Context).data_type_handles =
        ctx.data_type_handles from rfl] at h
      rw [hdt] at h
      cases rD with
      | error e => simp at h
      | ok j =>
        simp only [Prod.mk.injEq, Except.ok.injEq] at h
        obtain ⟨hctx, rfl⟩ := h
        exact ⟨mod, name, idPool, dtPool, rfl, rfl, hdt, hctx.symm⟩

/-- C4: when dependency `D` (supplied to the context and exporting type `S`
with handle `dth`) is imported under alias `X` and `X::S` is not yet local,
a successful resolution of `X::S` interns a local handle carrying exactly
`dth`'s abilities and type parameters, and resolving `X::S` again returns
the same local index with no further mutation. -/
theorem C4_import_round_trip (ctx ctx₁ : Context) (X : ModuleName)
    (S : DataTypeName) (D : ModuleIdent) (mh : ModuleHandle)
    (v : CompiledDependencyView) (dth : DataTypeHandle) (i : Nat)
    (hX : X ≠ ModuleName.module_self)
    (hmod : alookup ctx.modules X = some (D, mh))
    (hdep : alookup ctx.dependencies D = some v)
    (hview : v.data_type_handle D.name S = some dth)
    (hfresh : alookup ctx.structs ⟨X, S⟩ = none)
    (h₁ : ctx.data_type_handle_index ⟨X, S⟩ = (ctx₁, .ok i)) :
    ctx₁.data_type_handle_index ⟨X, S⟩ = (ctx₁, .ok i) ∧
    ∃ h, alookup ctx₁.structs ⟨X, S⟩ = some h ∧
      poolLookup ctx₁.data_type_handles h = some i ∧
      h.abilities = dth.abilities ∧ h.type_parameters = dth.type_parameters := by
  have hdd : ctx.dep_data_type_handle ⟨X, S⟩ =
      .ok (dth.abilities, dth.type_parameters) := by
    simp [Context.dep_data_type_handle, hX, Context.module_ident, hmod,
      Context.dependency, hdep, hview]
  unfold Context.data_type_handle_index at h₁
  rw [hfresh, hdd] at h₁
  obtain ⟨mod, name, idPool, dtPool, hmodi, hid, hdt, hc₁⟩ :=
    declare_dth_ok_decomp h₁
  have hstr : alookup ctx₁.structs ⟨X, S⟩ =
      some ⟨mod, name, dth.abilities, dth.type_parameters⟩ := by
    rw [hc₁]
    exact alookup_ainsert_self _ _ _
  have hpool : poolLookup ctx₁.data_type_handles
      ⟨mod, name, dth.abilities, dth.type_parameters⟩ = some i := by
    rw [hc₁]
    exact get_or_add_item_ok_lookup hdt
  refine ⟨?_, ⟨mod, name, dth.abilities, dth.type_parameters⟩, hstr, hpool,
    rfl, rfl⟩
  simp [Context.data_type_handle_index, hstr, hpool]

/-- C4 (witness): the import-round-trip theorem applied to the concrete
context importing `depD` (whose `S` has abilities 3 and type parameters
`[6]`) under alias `X`. -/
theorem C4_witness :
    (ctxD.data_type_handle_index ⟨"X", "S"⟩).2 = .ok 0 ∧
    (ctxD.data_type_handle_index ⟨"X", "S"⟩).1.data_type_handle_index
        ⟨"X", "S"⟩ =
      ((ctxD.data_type_handle_index ⟨"X", "S"⟩).1, .ok 0) ∧
    alookup (ctxD.data_type_handle_index ⟨"X", "S"⟩).1.structs ⟨"X", "S"⟩ =
      some ⟨0, 1, 3, [6]⟩ :=
  ⟨rfl,
    (C4_import_round_trip ctxD _ "X" "S" identD ⟨0, 0⟩ depViewD ⟨0, 1, 3, [6]⟩ 0
      (by simp [ModuleName.module_self]) rfl rfl rfl rfl rfl).1,
    rfl⟩

theorem sigPoolFrom_lookup_u8 : ∀ j m,
    poolLookup (sigPoolFrom m j) [SignatureToken.U8] = none := by
  intro j
  induction j with
  | zero => intro m; rfl
  | succ j ih => intro m; simp [sigPoolFrom, poolLookup, ih]

theorem sigPoolFrom_length : ∀ j m, (sigPoolFrom m j).length = j := by
  intro j
  induction j with
  | zero => intro m; rfl
  | succ j ih => intro m; simp [sigPoolFrom, ih]

/-- C10: `declare_function` stores the (module, name) → signature entry
before the fallible signature-interning steps, so when the signature pool
is full and the parameter signature is new, the call fails with a table
overflow yet leaves the signature table grown by one entry; in a state
where the handle and signature tables previously had equal cardinality,
the cardinality-equality assertion of `materialize_pools` then fails. -/
theorem C10_declare_function_not_atomic (ctx : Context) (M : ModuleName)
    (f : FunctionName) (sig : FunctionSignature) (D : ModuleIdent)
    (mh : ModuleHandle) (mhIdx nameIdx : Nat)
    (hmod : alookup ctx.modules M = some (D, mh))
    (hpool : poolLookup ctx.module_handles mh = some mhIdx)
    (hident : poolLookup ctx.identifiers f = some nameIdx)
    (hfs : alookup ctx.function_signatures (M, f) = none)
    (hplk : poolLookup ctx.signatures sig.parameters = none)
    (hfull : TABLE_MAX_SIZE ≤ ctx.signatures.length) :
    ctx.declare_function M f sig =
      ({ ctx with function_signatures :=
          ctx.function_signatures ++ [((M, f), sig)] }, .error .tableOverflow) ∧
    (ctx.function_signatures ++ [((M, f), sig)]).length =
      ctx.function_signatures.length + 1 ∧
    (ctx.function_handles.length = ctx.function_signatures.length →
      Context.materialize_pools
        { ctx with function_signatures :=
            ctx.function_signatures ++ [((M, f), sig)] } = none) := by
  have hmhi : ctx.module_handle_index M = .ok mhIdx := by
    simp [Context.module_handle_index, Context.module_handle, hmod, hpool]
  have hfound : get_or_add_item ctx.identifiers f =
      (ctx.identifiers, .ok nameIdx) := get_or_add_item_found hident
  have hoverflow : get_or_add_item ctx.signatures sig.parameters =
      (ctx.signatures, .error .tableOverflow) :=
    get_or_add_item_full hplk hfull
  have hins : ainsert ctx.function_signatures (M, f) sig =
      ctx.function_signatures ++ [((M, f), sig)] :=
    ainsert_of_alookup_none sig hfs
  refine ⟨?_, by simp, ?_⟩
  · simp only [Context.declare_function, hmhi, Context.identifier_index, hfound,
      hins, hoverflow]
  · intro hbal
    simp only [Context.materialize_pools]
    rw [if_pos]
    simp only [List.length_append, List.length_singleton]
    omega

/-- C10 (witness): the non-atomicity theorem applied to the concrete
context `ctxOverflow`, whose signature pool is full and whose handle and
signature tables are both empty. -/
theorem C10_witness :
    (ctxOverflow.declare_function "M" "f" sigU8).2 = .error .tableOverflow ∧
    (ctxOverflow.declare_function "M" "f" sigU8).1.function_signatures.length =
      ctxOverflow.function_signatures.length + 1 ∧
    (ctxOverflow.declare_function "M" "f" sigU8).1.materialize_pools = none := by
  have h := C10_declare_function_not_atomic ctxOverflow "M" "f" sigU8 identM
    ⟨0, 0⟩ 0 0 rfl rfl rfl rfl (sigPoolFrom_lookup_u8 65535 0)
    (by simp [TABLE_MAX_SIZE, ctxOverflow, sigPoolFrom_length])
  refine ⟨?_, ?_, ?_⟩
  · rw [h.1]
  · rw [h.1]
    simp
  · rw [h.1]
    exact h.2.2 rfl

theorem alookup_ainsert {κ ν : Type} [DecidableEq κ]
    (m : List (κ × ν)) (k k' : κ) (v : ν) :
    alookup (ainsert m k v) k' = if k = k' then some v else alookup m k' := by
  induction m with
  | nil => simp [ainsert, alookup]
  | cons hd tl ih =>
    by_cases hk : hd.1 = k
    · by_cases hkk : k = k' <;> simp [ainsert, alookup, hk, hkk]
    · by_cases hk' : hd.1 = k'
      · have h1 : ¬ k = k' := fun h => hk (h ▸ hk')
        have h2 : ¬ k' = k := fun h => h1 h.symm
        simp [ainsert, alookup, hk, hk', h1, h2]
      · simp [ainsert, alookup, hk, hk', ih]

theorem enumFrom_mem {α : Type} :
    ∀ (l : List α) (n i : Nat) (a : α), (i, a) ∈ enumFrom n l →
      ∃ j, i = n + j ∧ l[j]? = some a := by
  intro l
  induction l with
  | nil => intro n i a h; simp [enumFrom] at h
  | cons x xs ih =>
    intro n i a h
    simp only [enumFrom, List.mem_cons] at h
    rcases h with h | h
    · cases h
      exact ⟨0, by omega, by simp⟩
    · obtain ⟨j, rfl, hj⟩ := ih (n + 1) i a h
      exact ⟨j + 1, by omega, by simpa using hj⟩

theorem enumFrom_of_getElem {α : Type} :
    ∀ (l : List α) (n j : Nat) (a : α), l[j]? = some a →
      (n + j, a) ∈ enumFrom n l := by
  intro l
  induction l with
  | nil => intro n j a h; simp at h
  | cons x xs ih =>
    intro n j a h
    cases j with
    | zero =>
      simp only [List.getElem?_cons_zero, Option.some.injEq] at h
      simp [enumFrom, h]
    | succ j =>
      simp only [List.getElem?_cons_succ] at h
      have := ih (n + 1) j a h
      have harith : n + (j + 1) = n + 1 + j := by omega
      rw [harith]
      simp [enumFrom, this]

theorem buildFunctions_sound (m : CompiledModule) :
    ∀ (l : List (Nat × FunctionHandle)) (acc : List (Identifier × Nat)),
      (∀ q ∈ l, m.function_handles[q.1]? = some q.2) →
      (∀ nm idx, alookup acc nm = some idx →
        ∃ fh, m.function_handles[idx]? = some fh ∧
          fh.module = m.self_module_handle_idx ∧ m.identifier_at fh.name = nm) →
      ∀ nm idx, alookup (buildFunctions m l acc) nm = some idx →
        ∃ fh, m.function_handles[idx]? = some fh ∧
          fh.module = m.self_module_handle_idx ∧ m.identifier_at fh.name = nm := by
  intro l
  induction l with
  | nil => intro acc _ hacc nm idx h; exact hacc nm idx h
  | cons q tl ih =>
    rcases q with ⟨i, fh⟩
    intro acc hl hacc nm idx h
    simp only [buildFunctions] at h
    by_cases hm : fh.module = m.self_module_handle_idx
    · rw [if_pos hm] at h
      refine ih _ (fun q hq => hl q (by simp [hq])) ?_ nm idx h
      intro nm' idx' hlk
      rw [alookup_ainsert] at hlk
      by_cases hk : m.identifier_at fh.name = nm'
      · rw [if_pos hk] at hlk
        cases hlk
        exact ⟨fh, hl (i, fh) (by simp), hm, hk⟩
      · rw [if_neg hk] at hlk
        exact hacc nm' idx' hlk
    · rw [if_neg hm] at h
      exact ih _ (fun q hq => hl q (by simp [hq])) hacc nm idx h

theorem buildFunctions_complete (m : CompiledModule) :
    ∀ (l : List (Nat × FunctionHandle)) (acc : List (Identifier × Nat))
      (nm : Identifier),
      ((∃ q ∈ l, q.2.module = m.self_module_handle_idx ∧
          m.identifier_at q.2.name = nm) ∨ (alookup acc nm).isSome) →
      (alookup (buildFunctions m l acc) nm).isSome := by
  intro l
  induction l with
  | nil =>
    intro acc nm h
    rcases h with ⟨q, hq, _⟩ | h
    · simp at hq
    · exact h
  | cons q tl ih =>
    rcases q with ⟨i, fh⟩
    intro acc nm h
    simp only [buildFunctions]
    by_cases hm : fh.module = m.self_module_handle_idx
    · rw [if_pos hm]
      apply ih
      rcases h with ⟨q', hq', hq'2⟩ | hacc
      · rcases List.mem_cons.mp hq' with rfl | htl
        · right
          rw [alookup_ainsert, if_pos hq'2.2]
          rfl
        · left
          exact ⟨q', htl, hq'2⟩
      · right
        rw [alookup_ainsert]
        by_cases hk : m.identifier_at fh.name = nm <;> simp [hk, hacc]
    · rw [if_neg hm]
      apply ih
      rcases h with ⟨q', hq', hq'2⟩ | hacc
      · rcases List.mem_cons.mp hq' with rfl | htl
        · exact absurd hq'2.1 hm
        · left
          exact ⟨q', htl, hq'2⟩
      · right
        exact hacc

theorem mem_of_getElem?_some {α : Type} :
    ∀ {l : List α} {i : Nat} {a : α}, l[i]? = some a → a ∈ l := by
  intro l
  induction l with
  | nil => intro i a h; simp at h
  | cons x xs ih =>
    intro i a h
    cases i with
    | zero =>
      simp only [List.getElem?_cons_zero, Option.some.injEq] at h
      simp [h]
    | succ i =>
      simp only [List.getElem?_cons_succ] at h
      simp [ih h]

theorem getElem?_some_of_mem {α : Type} :
    ∀ {l : List α} {a : α}, a ∈ l → ∃ i : Nat, l[i]? = some a := by
  intro l
  induction l with
  | nil => intro a h; simp at h
  | cons x xs ih =>
    intro a h
    rcases List.mem_cons.mp h with rfl | htl
    · exact ⟨0, by simp⟩
    · obtain ⟨i, hi⟩ := ih htl
      exact ⟨i + 1, by simpa using hi⟩

/-- C8: for a well-formed dependency module, the view's function lookup
returns a signature exactly when the module contains a function handle
with that name whose module field equals the module's own self-handle; in
that case the returned parameter and return signatures are the ones
recorded at such a handle's signature-pool indices.  Names the dependency
merely references (module field of a foreign module) yield nothing. -/
theorem C8_dependency_function_lookup (m : CompiledModule)
    (v : CompiledDependencyView) (name : FunctionName)
    (hwf : m.wf) (hv : CompiledDependencyView.new m = .ok v) :
    ((v.function_signature name).isSome ↔
      ∃ fh ∈ m.function_handles, fh.module = m.self_module_handle_idx ∧
        m.identifier_at fh.name = name) ∧
    (∀ sig, v.function_signature name = some sig →
      ∃ fh ∈ m.function_handles, fh.module = m.self_module_handle_idx ∧
        m.identifier_at fh.name = name ∧
        sig = ⟨m.signatures.getD fh.return_ [], m.signatures.getD fh.parameters [],
          fh.type_parameters⟩) := by
  unfold CompiledDependencyView.new at hv
  cases hbs : buildStructs m m.data_type_handles [] with
  | error e => rw [hbs] at hv; simp at hv
  | ok st =>
    rw [hbs] at hv
    simp only [Except.ok.injEq] at hv
    subst hv
    have hl : ∀ q ∈ enumFrom 0 m.function_handles,
        m.function_handles[q.1]? = some q.2 := by
      intro q hq
      obtain ⟨j, hj1, hj2⟩ := enumFrom_mem m.function_handles 0 q.1 q.2 hq
      rw [hj1]
      simpa using hj2
    have hsound := buildFunctions_sound m (enumFrom 0 m.function_handles) [] hl
      (fun nm idx h => by simp [alookup] at h)
    constructor
    · constructor
      · intro h
        simp only [CompiledDependencyView.function_signature] at h
        rcases halk : alookup (buildFunctions m (enumFrom 0 m.function_handles) [])
            name with _ | idx
        · rw [halk] at h
          simp at h
        · obtain ⟨fh, hfh, hmod, hname⟩ := hsound name idx halk
          exact ⟨fh, mem_of_getElem?_some hfh, hmod, hname⟩
      · rintro ⟨fh, hmem, hmod, hname⟩
        obtain ⟨j, hj⟩ := getElem?_some_of_mem hmem
        have hmemEnum : (j, fh) ∈ enumFrom 0 m.function_handles := by
          simpa using enumFrom_of_getElem m.function_handles 0 j fh hj
        have hc := buildFunctions_complete m (enumFrom 0 m.function_handles) []
          name (Or.inl ⟨(j, fh), hmemEnum, hmod, hname⟩)
        rcases halk : alookup (buildFunctions m (enumFrom 0 m.function_handles) [])
            name with _ | idx
        · rw [halk] at hc
          simp at hc
        · obtain ⟨fh', hfh', _, _⟩ := hsound name idx halk
          simp [CompiledDependencyView.function_signature, halk, hfh']
    · intro sig hsig
      simp only [CompiledDependencyView.function_signature] at hsig
      rcases halk : alookup (buildFunctions m (enumFrom 0 m.function_handles) [])
          name with _ | idx
      · rw [halk] at hsig
        simp at hsig
      · rw [halk] at hsig
        simp only [Option.bind] at hsig
        rcases hpool : m.function_handles[idx]? with _ | fh
        · rw [hpool] at hsig
          simp at hsig
        · rw [hpool] at hsig
          simp only [Option.map_some', Option.some.injEq] at hsig
          obtain ⟨fh', hfh', hmod, hname⟩ := hsound name idx halk
          rw [hpool] at hfh'
          cases hfh'
          exact ⟨fh, mem_of_getElem?_some hpool, hmod, hname, by rw [← hsig]⟩

/-- C8 (witness): the function-lookup theorem applied to the concrete
module `depD`, which defines `g` and merely references `h`. -/
theorem C8_witness :
    (depViewD.function_signature "g").isSome = true ∧
    depViewD.function_signature "h" = none :=
  ⟨(C8_dependency_function_lookup depD depViewD "g" (by unfold CompiledModule.wf; decide) rfl).1.mpr
      ⟨⟨0, 2, 1, 0, []⟩, by decide, rfl, rfl⟩,
    Option.not_isSome_iff_eq_none.mp fun hs =>
      absurd ((C8_dependency_function_lookup depD depViewD "h" (by unfold CompiledModule.wf; decide)
        rfl).1.mp hs) (by decide)⟩

theorem reindex_erase :
    (∀ t : SignatureToken, ∀ (ctx : Context) (dep : ModuleIdent) (c : Context)
      (t' : SignatureToken), ctx.reindex_signature_token dep t = (c, .ok t') →
        erase t' = erase t) ∧
    (∀ ts : List SignatureToken, ∀ (ctx : Context) (dep : ModuleIdent)
      (c : Context) (ts' : List SignatureToken),
      ctx.reindex_signature_token_list dep ts = (c, .ok ts') →
        eraseList ts' = eraseList ts) := by
  refine tokId.mutual_induct
    (fun t => ∀ (ctx : Context) (dep : ModuleIdent) (c : Context)
      (t' : SignatureToken), ctx.reindex_signature_token dep t = (c, .ok t') →
        erase t' = erase t)
    (fun ts => ∀ (ctx : Context) (dep : ModuleIdent) (c : Context)
      (ts' : List SignatureToken),
      ctx.reindex_signature_token_list dep ts = (c, .ok ts') →
        eraseList ts' = eraseList ts)
    ?_ ?_ ?_ ?_ ?_ ?_ ?_ ?_ ?_ ?_ ?_ ?_ ?_ ?_ ?_ ?_ ?_
  · intro ctx dep c t' h
    simp only [Context.reindex_signature_token, Prod.mk.injEq, Except.ok.injEq] at h
    rw [← h.2]
  · intro ctx dep c t' h
    simp only [Context.reindex_signature_token, Prod.mk.injEq, Except.ok.injEq] at h
    rw [← h.2]
  · intro ctx dep c t' h
    simp only [Context.reindex_signature_token, Prod.mk.injEq, Except.ok.injEq] at h
    rw [← h.2]
  · intro ctx dep c t' h
    simp only [Context.reindex_signature_token, Prod.mk.injEq, Except.ok.injEq] at h
    rw [← h.2]
  · intro ctx dep c t' h
    simp only [Context.reindex_signature_token, Prod.mk.injEq, Except.ok.injEq] at h
    rw [← h.2]
  · intro ctx dep c t' h
    simp only [Context.reindex_signature_token, Prod.mk.injEq, Except.ok.injEq] at h
    rw [← h.2]
  · intro ctx dep c t' h
    simp only [Context.reindex_signature_token, Prod.mk.injEq, Except.ok.injEq] at h
    rw [← h.2]
  · intro ctx dep c t' h
    simp only [Context.reindex_signature_token, Prod.mk.injEq, Except.ok.injEq] at h
    rw [← h.2]
  · intro ctx dep c t' h
    simp only [Context.reindex_signature_token, Prod.mk.injEq, Except.ok.injEq] at h
    rw [← h.2]
  · intro t ih ctx dep c t' h
    rcases hr : ctx.reindex_signature_token dep t with ⟨c1, r⟩
    cases r with
    | error e => simp [Context.reindex_signature_token, hr] at h
    | ok u =>
      simp only [Context.reindex_signature_token, hr, Prod.mk.injEq,
        Except.ok.injEq] at h
      obtain ⟨rfl, rfl⟩ := h
      simp [erase, ih _ _ _ _ hr]
  · intro t ih ctx dep c t' h
    rcases hr : ctx.reindex_signature_token dep t with ⟨c1, r⟩
    cases r with
    | error e => simp [Context.reindex_signature_token, hr] at h
    | ok u =>
      simp only [Context.reindex_signature_token, hr, Prod.mk.injEq,
        Except.ok.injEq] at h
      obtain ⟨rfl, rfl⟩ := h
      simp [erase, ih _ _ _ _ hr]
  · intro t ih ctx dep c t' h
    rcases hr : ctx.reindex_signature_token dep t with ⟨c1, r⟩
    cases r with
    | error e => simp [Context.reindex_signature_token, hr] at h
    | ok u =>
      simp only [Context.reindex_signature_token, hr, Prod.mk.injEq,
        Except.ok.injEq] at h
      obtain ⟨rfl, rfl⟩ := h
      simp [erase, ih _ _ _ _ hr]
  · intro i ctx dep c t' h
    simp only [Context.reindex_signature_token, Prod.mk.injEq, Except.ok.injEq] at h
    rw [← h.2]
  · intro i ctx dep c t' h
    cases hd : ctx.dependency dep with
    | error e => simp [Context.reindex_signature_token, hd] at h
    | ok v =>
      rcases hs : v.source_struct_info i with _ | ⟨mid, sn⟩
      · simp [Context.reindex_signature_token, hd, hs] at h
      · cases ha : ctx.module_alias mid with
        | error e => simp [Context.reindex_signature_token, hd, hs, ha] at h
        | ok mn =>
          rcases hdi : ctx.data_type_handle_index ⟨mn, sn⟩ with ⟨c1, r⟩
          cases r with
          | error e => simp [Context.reindex_signature_token, hd, hs, ha, hdi] at h
          | ok j =>
            simp only [Context.reindex_signature_token, hd, hs, ha, hdi,
              Prod.mk.injEq, Except.ok.injEq] at h
            obtain ⟨rfl, rfl⟩ := h
            simp [erase]
  · intro i args ih ctx dep c t' h
    cases hd : ctx.dependency dep with
    | error e => simp [Context.reindex_signature_token, hd] at h
    | ok v =>
      rcases hs : v.source_struct_info i with _ | ⟨mid, sn⟩
      · simp [Context.reindex_signature_token, hd, hs] at h
      · cases ha : ctx.module_alias mid with
        | error e => simp [Context.reindex_signature_token, hd, hs, ha] at h
        | ok mn =>
          rcases hdi : ctx.data_type_handle_index ⟨mn, sn⟩ with ⟨c1, r⟩
          cases r with
          | error e => simp [Context.reindex_signature_token, hd, hs, ha, hdi] at h
          | ok j =>
            rcases hl : c1.reindex_signature_token_list dep args with ⟨c2, r2⟩
            cases r2 with
            | error e =>
              simp [Context.reindex_signature_token, hd, hs, ha, hdi, hl] at h
            | ok us =>
              simp only [Context.reindex_signature_token, hd, hs, ha, hdi, hl,
                Prod.mk.injEq, Except.ok.injEq] at h
              obtain ⟨rfl, rfl⟩ := h
              simp [erase, ih _ _ _ _ hl]
  · intro ctx dep c ts' h
    simp only [Context.reindex_signature_token_list, Prod.mk.injEq,
      Except.ok.injEq] at h
    rw [← h.2]
  · intro t ts iht ihts ctx dep c ts' h
    rcases hr : ctx.reindex_signature_token dep t with ⟨c1, r⟩
    cases r with
    | error e => simp [Context.reindex_signature_token_list, hr] at h
    | ok u =>
      rcases hl : c1.reindex_signature_token_list dep ts with ⟨c2, r2⟩
      cases r2 with
      | error e => simp [Context.reindex_signature_token_list, hr, hl] at h
      | ok us =>
        simp only [Context.reindex_signature_token_list, hr, hl, Prod.mk.injEq,
          Except.ok.injEq] at h
        obtain ⟨rfl, rfl⟩ := h
        simp [eraseList, iht _ _ _ _ hr, ihts _ _ _ _ hl]

/-- C2: re-indexing a foreign function signature is structure-preserving.
Every successfully re-indexed token has the same named-type-erased shape
as the original (so the result is structurally isomorphic with only
named-type indices substituted); primitive scalars and type parameters
pass through unchanged with no state change; a named-type token is
replaced by the local index obtained by resolving the foreign handle's
owning module identity and type name through the same dependency view and
the local alias table; an instantiated named type additionally has every
type argument re-indexed the same way.  Parameter and return tokens of a
signature are each re-indexed this way, with type parameters untouched. -/
theorem C2_reindex_structure_preserving :
    (∀ (ctx : Context) (dep : ModuleIdent) (orig : FunctionSignature)
      (c : Context) (res : FunctionSignature),
      ctx.reindex_function_signature dep orig = (c, .ok res) →
        eraseList res.parameters = eraseList orig.parameters ∧
        eraseList res.return_ = eraseList orig.return_ ∧
        res.type_parameters = orig.type_parameters) ∧
    (∀ (ctx : Context) (dep : ModuleIdent) (t : SignatureToken),
      isSimpleToken t = true → ctx.reindex_signature_token dep t = (ctx, .ok t)) ∧
    (∀ (ctx : Context) (dep : ModuleIdent) (c : Context) (t t' : SignatureToken),
      ctx.reindex_signature_token dep t = (c, .ok t') → erase t' = erase t) ∧
    (∀ (ctx : Context) (dep : ModuleIdent) (i : Nat) (c : Context)
      (t' : SignatureToken),
      ctx.reindex_signature_token dep (.DataType i) = (c, .ok t') →
      ∃ v mid sn mn j,
        alookup ctx.dependencies dep = some v ∧
        v.source_struct_info i = some (mid, sn) ∧
        alookup ctx.aliases mid = some mn ∧
        ctx.data_type_handle_index ⟨mn, sn⟩ = (c, .ok j) ∧
        t' = .DataType j) ∧
    (∀ (ctx : Context) (dep : ModuleIdent) (i : Nat)
      (args : List SignatureToken) (c : Context) (t' : SignatureToken),
      ctx.reindex_signature_token dep (.DataTypeInstantiation i args) =
        (c, .ok t') →
      ∃ v mid sn mn j c1 args',
        alookup ctx.dependencies dep = some v ∧
        v.source_struct_info i = some (mid, sn) ∧
        alookup ctx.aliases mid = some mn ∧
        ctx.data_type_handle_index ⟨mn, sn⟩ = (c1, .ok j) ∧
        c1.reindex_signature_token_list dep args = (c, .ok args') ∧
        t' = .DataTypeInstantiation j args') := by
  refine ⟨?_, ?_, fun ctx dep c t t' h => reindex_erase.1 t ctx dep c t' h, ?_, ?_⟩
  · intro ctx dep orig c res h
    rcases hr : ctx.reindex_signature_token_list dep orig.return_ with ⟨c1, r⟩
    cases r with
    | error e => simp [Context.reindex_function_signature, hr] at h
    | ok rets =>
      rcases hp : c1.reindex_signature_token_list dep orig.parameters with ⟨c2, r2⟩
      cases r2 with
      | error e => simp [Context.reindex_function_signature, hr, hp] at h
      | ok params =>
        simp only [Context.reindex_function_signature, hr, hp, Prod.mk.injEq,
          Except.ok.injEq] at h
        obtain ⟨rfl, rfl⟩ := h
        exact ⟨reindex_erase.2 _ _ _ _ _ hp, reindex_erase.2 _ _ _ _ _ hr, rfl⟩
  · intro ctx dep t hsimple
    cases t <;> simp [isSimpleToken] at hsimple <;>
      simp [Context.reindex_signature_token]
  · intro ctx dep i c t' h
    cases hd : ctx.dependency dep with
    | error e => simp [Context.reindex_signature_token, hd] at h
    | ok v =>
      rcases hs : v.source_struct_info i with _ | ⟨mid, sn⟩
      · simp [Context.reindex_signature_token, hd, hs] at h
      · cases ha : ctx.module_alias mid with
        | error e => simp [Context.reindex_signature_token, hd, hs, ha] at h
        | ok mn =>
          rcases hdi : ctx.data_type_handle_index ⟨mn, sn⟩ with ⟨c1, r⟩
          cases r with
          | error e => simp [Context.reindex_signature_token, hd, hs, ha, hdi] at h
          | ok j =>
            simp only [Context.reindex_signature_token, hd, hs, ha, hdi,
              Prod.mk.injEq, Except.ok.injEq] at h
            obtain ⟨rfl, rfl⟩ := h
            have hd' : alookup ctx.dependencies dep = some v := by
              unfold Context.dependency at hd
              rcases halk : alookup ctx.dependencies dep with _ | w
              · rw [halk] at hd; simp at hd
              · rw [halk] at hd
                simp only [Except.ok.injEq] at hd
                rw [hd]
            have ha' : alookup ctx.aliases mid = some mn := by
              unfold Context.module_alias at ha
              rcases halk : alookup ctx.aliases mid with _ | w
              · rw [halk] at ha; simp at ha
              · rw [halk] at ha
                simp only [Except.ok.injEq] at ha
                rw [ha]
            exact ⟨v, mid, sn, mn, j, hd', hs, ha', hdi, rfl⟩
  · intro ctx dep i args c t' h
    cases hd : ctx.dependency dep with
    | error e => simp [Context.reindex_signature_token, hd] at h
    | ok v =>
      rcases hs : v.source_struct_info i with _ | ⟨mid, sn⟩
      · simp [Context.reindex_signature_token, hd, hs] at h
      · cases ha : ctx.module_alias mid with
        | error e => simp [Context.reindex_signature_token, hd, hs, ha] at h
        | ok mn =>
          rcases hdi : ctx.data_type_handle_index ⟨mn, sn⟩ with ⟨c1, r⟩
          cases r with
          | error e => simp [Context.reindex_signature_token, hd, hs, ha, hdi] at h
          | ok j =>
            rcases hl : c1.reindex_signature_token_list dep args with ⟨c2, r2⟩
            cases r2 with
            | error e =>
              simp [Context.reindex_signature_token, hd, hs, ha, hdi, hl] at h
            | ok us =>
              simp only [Context.reindex_signature_token, hd, hs, ha, hdi, hl,
                Prod.mk.injEq, Except.ok.injEq] at h
              obtain ⟨rfl, rfl⟩ := h
              have hd' : alookup ctx.dependencies dep = some v := by
                unfold Context.dependency at hd
                rcases halk : alookup ctx.dependencies dep with _ | w
                · rw [halk] at hd; simp at hd
                · rw [halk] at hd
                  simp only [Except.ok.injEq] at hd
                  rw [hd]
              have ha' : alookup ctx.aliases mid = some mn := by
                unfold Context.module_alias at ha
                rcases halk : alookup ctx.aliases mid with _ | w
                · rw [halk] at ha; simp at ha
                · rw [halk] at ha
                  simp only [Except.ok.injEq] at ha
                  rw [ha]
              exact ⟨v, mid, sn, mn, j, c1, us, hd', hs, ha', hdi, hl, rfl⟩

/-- C2 (witness): re-indexing the foreign signature token
`Vector<Reference<D::S>>` through the concrete context `ctxD` succeeds and
the structure-preservation theorem applies to the result. -/
theorem C2_witness :
    ctxD.reindex_signature_token identD (.Vector (.Reference (.DataType 0))) =
      ((ctxD.reindex_signature_token identD
        (.Vector (.Reference (.DataType 0)))).1,
        .ok (.Vector (.Reference (.DataType 0)))) ∧
    erase (.Vector (.Reference (.DataType 0))) =
      erase (SignatureToken.Vector (.Reference (.DataType 0))) :=
  ⟨rfl,
    C2_reindex_structure_preserving.2.2.1 ctxD identD
      (ctxD.reindex_signature_token identD
        (.Vector (.Reference (.DataType 0)))).1
      (.Vector (.Reference (.DataType 0))) (.Vector (.Reference (.DataType 0)))
      rfl⟩

theorem fillPool_spec {α : Type} :
    ∀ (items : List (α × Nat)) (options : List (Option α)),
      (∀ q ∈ items, q.2 < options.length ∧ options[q.2]? = some none) →
      List.Pairwise (fun a b => a.2 ≠ b.2) items →
      ∃ options', fillPool options items = some options' ∧
        options'.length = options.length ∧
        (∀ q ∈ items, options'[q.2]? = some (some q.1)) ∧
        (∀ j, (∀ q ∈ items, q.2 ≠ j) → options'[j]? = options[j]?) := by
  intro items
  induction items with
  | nil =>
    intro options _ _
    exact ⟨options, rfl, rfl, by simp, fun j _ => rfl⟩
  | cons hd tl ih =>
    rcases hd with ⟨a, i⟩
    intro options hmem hpw
    obtain ⟨hlt, hslot⟩ := hmem (a, i) (by simp)
    have hpw' := List.pairwise_cons.mp hpw
    have hstep : fillPool options ((a, i) :: tl) =
        fillPool (options.set i (some a)) tl := by
      simp [fillPool, hslot]
    have hmem' : ∀ q ∈ tl, q.2 < (options.set i (some a)).length ∧
        (options.set i (some a))[q.2]? = some none := by
      intro q hq
      obtain ⟨hlt', hslot'⟩ := hmem q (by simp [hq])
      have hne : i ≠ q.2 := hpw'.1 q hq
      constructor
      · simpa using hlt'
      · rw [List.getElem?_set, if_neg hne]
        exact hslot'
    obtain ⟨options', h1, h2, h3, h4⟩ := ih (options.set i (some a)) hmem' hpw'.2
    refine ⟨options', by rw [hstep]; exact h1, by rw [h2]; simp, ?_, ?_⟩
    · intro q hq
      rcases List.mem_cons.mp hq with rfl | htl
      · have hfix : ∀ q' ∈ tl, q'.2 ≠ i := fun q' hq' => (hpw'.1 q' hq').symm
        rw [h4 i hfix, List.getElem?_set, if_pos rfl]
        simp [hlt]
      · exact h3 q htl
    · intro j hj
      rw [h4 j fun q hq => hj q (by simp [hq])]
      rw [List.getElem?_set, if_neg fun he => hj (a, i) (by simp) he]

theorem allSome_spec {α : Type} :
    ∀ options : List (Option α),
      (∀ j, j < options.length → ∃ a, options[j]? = some (some a)) →
      ∃ out, allSome options = some out ∧ out.length = options.length ∧
        ∀ (j : Nat) (a : α), options[j]? = some (some a) → out[j]? = some a := by
  intro options
  induction options with
  | nil => exact fun _ => ⟨[], rfl, rfl, by simp⟩
  | cons o os ih =>
    intro h
    obtain ⟨a, ha⟩ := h 0 (by simp)
    simp only [List.getElem?_cons_zero, Option.some.injEq] at ha
    subst ha
    obtain ⟨out, h1, h2, h3⟩ := ih fun j hj => by
      simpa using h (j + 1) (by simpa using hj)
    refine ⟨a :: out, by simp [allSome, h1], by simp [h2], ?_⟩
    intro j b hb
    cases j with
    | zero =>
      simp only [List.getElem?_cons_zero, Option.some.injEq, Option.some_inj] at hb
      simp [hb]
    | succ j =>
      simp only [List.getElem?_cons_succ] at hb ⊢
      exact h3 j b hb

theorem materialize_pool_spec {α : Type} (size : Nat) (items : List (α × Nat))
    (hsnd : items.map Prod.snd = List.range size) :
    ∃ v, materialize_pool size items = some v ∧ v.length = size ∧
      ∀ q ∈ items, v[q.2]? = some q.1 := by
  have hnodup : List.Pairwise (fun a b : α × Nat => a.2 ≠ b.2) items := by
    have hnd : (items.map Prod.snd).Nodup := hsnd ▸ List.nodup_range size
    exact List.pairwise_map.mp hnd
  have hmem : ∀ q ∈ items, q.2 < (List.replicate size (none : Option α)).length ∧
      (List.replicate size (none : Option α))[q.2]? = some none := by
    intro q hq
    have hq2 : q.2 ∈ items.map Prod.snd := List.mem_map_of_mem _ hq
    rw [hsnd, List.mem_range] at hq2
    exact ⟨by simpa using hq2, by simp [List.getElem?_replicate, hq2]⟩
  obtain ⟨options', hfill, hlen', hset, _⟩ :=
    fillPool_spec items (List.replicate size none) hmem hnodup
  have hfull : ∀ j, j < options'.length → ∃ a, options'[j]? = some (some a) := by
    intro j hj
    rw [hlen', List.length_replicate] at hj
    have hjm : j ∈ items.map Prod.snd := by
      rw [hsnd, List.mem_range]
      exact hj
    obtain ⟨q, hq, hq2⟩ := List.mem_map.mp hjm
    exact ⟨q.1, hq2 ▸ hset q hq⟩
  obtain ⟨out, hall, hlen'', hidx⟩ := allSome_spec options' hfull
  refine ⟨out, ?_, ?_, fun q hq => hidx q.2 q.1 (hset q hq)⟩
  · simp [materialize_pool, hfill, hall]
  · rw [hlen'', hlen']
    simp

theorem ainsert_snd_snd_of_some {κ α : Type} [DecidableEq κ]
    {m : List (κ × (α × Nat))} {k : κ} {h₀ : α} {i : Nat} (h : α)
    (hlk : alookup m k = some (h₀, i)) :
    (ainsert m k (h, i)).map (fun e => e.2.2) = m.map fun e => e.2.2 := by
  induction m with
  | nil => simp [alookup] at hlk
  | cons hd tl ih =>
    by_cases hk : hd.1 = k
    · simp only [alookup, hk, if_pos, Option.some.injEq] at hlk
      simp [ainsert, hk, hlk]
    · simp only [alookup, hk, if_neg] at hlk
      simp [ainsert, hk, ih hlk]

theorem new_inv (deps : List (ModuleIdent × CompiledDependencyView)) :
    CtxInv (Context.new deps) := by
  constructor <;> rfl

theorem identifier_index_inv {ctx ctx' : Context} {s : Identifier}
    {r : Except CompileErr Nat} (hinv : CtxInv ctx)
    (h : ctx.identifier_index s = (ctx', r)) : CtxInv ctx' := by
  unfold Context.identifier_index at h
  rcases hg : get_or_add_item ctx.identifiers s with ⟨p, r'⟩
  rw [hg] at h
  cases h
  exact { hinv with identifiers := get_or_add_item_inv hinv.identifiers hg }

theorem address_index_inv {ctx ctx' : Context} {a : AccountAddress}
    {r : Except CompileErr Nat} (hinv : CtxInv ctx)
    (h : ctx.address_index a = (ctx', r)) : CtxInv ctx' := by
  unfold Context.address_index at h
  rcases hg : get_or_add_item ctx.address_identifiers a with ⟨p, r'⟩
  rw [hg] at h
  cases h
  exact { hinv with
    address_identifiers := get_or_add_item_inv hinv.address_identifiers hg }

theorem constant_index_inv {ctx ctx' : Context} {c : Constant}
    {r : Except CompileErr Nat} (hinv : CtxInv ctx)
    (h : ctx.constant_index c = (ctx', r)) : CtxInv ctx' := by
  unfold Context.constant_index at h
  rcases hg : get_or_add_item ctx.constant_pool c with ⟨p, r'⟩
  rw [hg] at h
  cases h
  exact { hinv with constant_pool := get_or_add_item_inv hinv.constant_pool hg }

theorem signature_index_inv {ctx ctx' : Context} {sig : Signature}
    {r : Except CompileErr Nat} (hinv : CtxInv ctx)
    (h : ctx.signature_index sig = (ctx', r)) : CtxInv ctx' := by
  unfold Context.signature_index at h
  rcases hg : get_or_add_item ctx.signatures sig with ⟨p, r'⟩
  rw [hg] at h
  cases h
  exact { hinv with signatures := get_or_add_item_inv hinv.signatures hg }

theorem field_handle_index_inv {ctx ctx' : Context} {o f : Nat}
    {r : Except CompileErr Nat} (hinv : CtxInv ctx)
    (h : ctx.field_handle_index o f = (ctx', r)) : CtxInv ctx' := by
  unfold Context.field_handle_index at h
  rcases hg : get_or_add_item ctx.field_handles ⟨o, f⟩ with ⟨p, r'⟩
  rw [hg] at h
  cases h
  exact { hinv with field_handles := get_or_add_item_inv hinv.field_handles hg }

theorem struct_instantiation_index_inv {ctx ctx' : Context} {d t : Nat}
    {r : Except CompileErr Nat} (hinv : CtxInv ctx)
    (h : ctx.struct_instantiation_index d t = (ctx', r)) : CtxInv ctx' := by
  unfold Context.struct_instantiation_index at h
  rcases hg : get_or_add_item ctx.struct_instantiations ⟨d, t⟩ with ⟨p, r'⟩
  rw [hg] at h
  cases h
  exact { hinv with
    struct_instantiations := get_or_add_item_inv hinv.struct_instantiations hg }

theorem enum_instantiation_index_inv {ctx ctx' : Context} {d t : Nat}
    {r : Except CompileErr Nat} (hinv : CtxInv ctx)
    (h : ctx.enum_instantiation_index d t = (ctx', r)) : CtxInv ctx' := by
  unfold Context.enum_instantiation_index at h
  rcases hg : get_or_add_item ctx.enum_instantiations ⟨d, t⟩ with ⟨p, r'⟩
  rw [hg] at h
  cases h
  exact { hinv with
    enum_instantiations := get_or_add_item_inv hinv.enum_instantiations hg }

theorem function_instantiation_index_inv {ctx ctx' : Context} {hd t : Nat}
    {r : Except CompileErr Nat} (hinv : CtxInv ctx)
    (h : ctx.function_instantiation_index hd t = (ctx', r)) : CtxInv ctx' := by
  unfold Context.function_instantiation_index at h
  rcases hg : get_or_add_item ctx.function_instantiations ⟨hd, t⟩ with ⟨p, r'⟩
  rw [hg] at h
  cases h
  exact { hinv with
    function_instantiations :=
      get_or_add_item_inv hinv.function_instantiations hg }

theorem field_instantiation_index_inv {ctx ctx' : Context} {hd t : Nat}
    {r : Except CompileErr Nat} (hinv : CtxInv ctx)
    (h : ctx.field_instantiation_index hd t = (ctx', r)) : CtxInv ctx' := by
  unfold Context.field_instantiation_index at h
  rcases hg : get_or_add_item ctx.field_instantiations ⟨hd, t⟩ with ⟨p, r'⟩
  rw [hg] at h
  cases h
  exact { hinv with
    field_instantiations := get_or_add_item_inv hinv.field_instantiations hg }

theorem label_index_inv {ctx ctx' : Context} {l : BlockLabel}
    {r : Except CompileErr Nat} (hinv : CtxInv ctx)
    (h : ctx.label_index l = (ctx', r)) : CtxInv ctx' := by
  unfold Context.label_index at h
  rcases hg : get_or_add_item ctx.labels l with ⟨p, r'⟩
  rw [hg] at h
  cases h
  exact { hinv with labels := get_or_add_item_inv hinv.labels hg }

theorem ctxInv_transfer {ctx ctx' : Context} (hinv : CtxInv ctx)
    (h1 : ctx'.module_handles = ctx.module_handles)
    (h2 : ctx'.data_type_handles = ctx.data_type_handles)
    (h3 : ctx'.signatures = ctx.signatures)
    (h4 : ctx'.identifiers = ctx.identifiers)
    (h5 : ctx'.address_identifiers = ctx.address_identifiers)
    (h6 : ctx'.constant_pool = ctx.constant_pool)
    (h7 : ctx'.field_handles = ctx.field_handles)
    (h8 : ctx'.struct_instantiations = ctx.struct_instantiations)
    (h9 : ctx'.enum_instantiations = ctx.enum_instantiations)
    (h10 : ctx'.function_instantiations = ctx.function_instantiations)
    (h11 : ctx'.field_instantiations = ctx.field_instantiations)
    (h12 : ctx'.labels = ctx.labels)
    (h13 : ctx'.function_handles = ctx.function_handles)
    (h14 : ctx'.function_signatures = ctx.function_signatures) :
    CtxInv ctx' where
  module_handles := by rw [h1]; exact hinv.module_handles
  data_type_handles := by rw [h2]; exact hinv.data_type_handles
  signatures := by rw [h3]; exact hinv.signatures
  identifiers := by rw [h4]; exact hinv.identifiers
  address_identifiers := by rw [h5]; exact hinv.address_identifiers
  constant_pool := by rw [h6]; exact hinv.constant_pool
  field_handles := by rw [h7]; exact hinv.field_handles
  struct_instantiations := by rw [h8]; exact hinv.struct_instantiations
  enum_instantiations := by rw [h9]; exact hinv.enum_instantiations
  function_instantiations := by rw [h10]; exact hinv.function_instantiations
  field_instantiations := by rw [h11]; exact hinv.field_instantiations
  labels := by rw [h12]; exact hinv.labels
  fn_idx := by rw [h13]; exact hinv.fn_idx
  fn_keys := by rw [h13, h14]; exact hinv.fn_keys

theorem declare_friend_inv {ctx ctx' : Context} {id : ModuleIdent}
    {r : Except CompileErr ModuleHandle} (hinv : CtxInv ctx)
    (h : ctx.declare_friend id = (ctx', r)) : CtxInv ctx' := by
  rcases ha : ctx.address_index id.address with ⟨c1, ra⟩
  have hinv1 := address_index_inv hinv ha
  cases ra with
  | error e =>
    simp only [Context.declare_friend, ha] at h
    cases h
    exact hinv1
  | ok ai =>
    rcases hb : c1.identifier_index id.name with ⟨c2, rb⟩
    have hinv2 := identifier_index_inv hinv1 hb
    cases rb with
    | error e =>
      simp only [Context.declare_friend, ha, hb] at h
      cases h
      exact hinv2
    | ok ni =>
      simp only [Context.declare_friend, ha, hb] at h
      cases h
      exact hinv2

theorem declare_import_inv {ctx ctx' : Context} {id : ModuleIdent}
    {al : ModuleName} {r : Except CompileErr Nat} (hinv : CtxInv ctx)
    (h : ctx.declare_import id al = (ctx', r)) : CtxInv ctx' := by
  have hinv0 : CtxInv { ctx with aliases := ainsert ctx.aliases id al } :=
    ctxInv_transfer hinv rfl rfl rfl rfl rfl rfl rfl rfl rfl rfl rfl rfl rfl rfl
  rcases ha : Context.address_index
      { ctx with aliases := ainsert ctx.aliases id al } id.address with ⟨c1, ra⟩
  have hinv1 := address_index_inv hinv0 ha
  cases ra with
  | error e =>
    simp only [Context.declare_import, ha] at h
    cases h
    exact hinv1
  | ok ai =>
    rcases hb : c1.identifier_index id.name with ⟨c2, rb⟩
    have hinv2 := identifier_index_inv hinv1 hb
    cases rb with
    | error e =>
      simp only [Context.declare_import, ha, hb] at h
      cases h
      exact hinv2
    | ok ni =>
      have hinv3 : CtxInv
          { c2 with modules := ainsert c2.modules al (id, ⟨ai, ni⟩) } :=
        ctxInv_transfer hinv2 rfl rfl rfl rfl rfl rfl rfl rfl rfl rfl rfl rfl
          rfl rfl
      rcases hg : get_or_add_item c2.module_handles (⟨ai, ni⟩ : ModuleHandle)
        with ⟨p, rc⟩
      simp only [Context.declare_import, ha, hb, hg] at h
      cases h
      exact { hinv3 with
        module_handles := get_or_add_item_inv hinv3.module_handles hg }

theorem declare_constant_inv {ctx ctx' : Context} {n : ConstantName}
    {c : Constant} {r : Except CompileErr Unit} (hinv : CtxInv ctx)
    (h : ctx.declare_constant n c = (ctx', r)) : CtxInv ctx' := by
  rcases hc : ctx.constant_index c with ⟨c1, rc⟩
  have hinv1 := constant_index_inv hinv hc
  cases rc with
  | error e =>
    simp only [Context.declare_constant, hc] at h
    cases h
    exact hinv1
  | ok i =>
    simp only [Context.declare_constant, hc] at h
    cases h
    exact ctxInv_transfer hinv1 rfl rfl rfl rfl rfl rfl rfl rfl rfl rfl rfl rfl
      rfl rfl

theorem declare_struct_definition_index_inv {ctx ctx' : Context}
    {s : DataTypeName} {r : Except CompileErr Nat} (hinv : CtxInv ctx)
    (h : ctx.declare_struct_definition_index s = (ctx', r)) : CtxInv ctx' := by
  simp only [Context.declare_struct_definition_index] at h
  by_cases hmax : TABLE_MAX_SIZE < ctx.struct_defs.length
  · rw [if_pos hmax] at h
    cases h
    exact hinv
  · rw [if_neg hmax] at h
    split at h <;> cases h
    · exact hinv
    · exact ctxInv_transfer hinv rfl rfl rfl rfl rfl rfl rfl rfl rfl rfl rfl rfl
        rfl rfl

theorem declare_enum_definition_index_inv {ctx ctx' : Context}
    {s : DataTypeName} {r : Except CompileErr Nat} (hinv : CtxInv ctx)
    (h : ctx.declare_enum_definition_index s = (ctx', r)) : CtxInv ctx' := by
  simp only [Context.declare_enum_definition_index] at h
  by_cases hmax : TABLE_MAX_SIZE < ctx.enum_defs.length
  · rw [if_pos hmax] at h
    cases h
    exact hinv
  · rw [if_neg hmax] at h
    split at h <;> cases h
    · exact hinv
    · exact ctxInv_transfer hinv rfl rfl rfl rfl rfl rfl rfl rfl rfl rfl rfl rfl
        rfl rfl

theorem declare_field_inv {ctx : Context} {s sd : Nat} {f : FieldName}
    {tok : SignatureToken} {ord : Nat} (hinv : CtxInv ctx) :
    CtxInv (ctx.declare_field s sd f tok ord) := by
  unfold Context.declare_field
  split
  · exact hinv
  · exact ctxInv_transfer hinv rfl rfl rfl rfl rfl rfl rfl rfl rfl rfl rfl rfl
      rfl rfl

theorem declare_variant_inv {ctx : Context} {s ed : Nat} {v : VariantName}
    {fc tag : Nat} (hinv : CtxInv ctx) :
    CtxInv (ctx.declare_variant s ed v fc tag) := by
  unfold Context.declare_variant
  split
  · exact hinv
  · exact ctxInv_transfer hinv rfl rfl rfl rfl rfl rfl rfl rfl rfl rfl rfl rfl
      rfl rfl

theorem set_function_index_inv {ctx : Context} {i : Nat} (hinv : CtxInv ctx) :
    CtxInv (ctx.set_function_index i) :=
  ctxInv_transfer hinv rfl rfl rfl rfl rfl rfl rfl rfl rfl rfl rfl rfl rfl rfl

theorem take_dependencies_inv {ctx : Context} (hinv : CtxInv ctx) :
    CtxInv ctx.take_dependencies.1 :=
  ctxInv_transfer hinv rfl rfl rfl rfl rfl rfl rfl rfl rfl rfl rfl rfl rfl rfl

theorem restore_dependencies_inv {ctx ctx' : Context}
    {deps : List (ModuleIdent × CompiledDependencyView)}
    {r : Except CompileErr Unit} (hinv : CtxInv ctx)
    (h : ctx.restore_dependencies deps = (ctx', r)) : CtxInv ctx' := by
  unfold Context.restore_dependencies at h
  split at h <;> cases h
  · exact ctxInv_transfer hinv rfl rfl rfl rfl rfl rfl rfl rfl rfl rfl rfl rfl
      rfl rfl
  · exact hinv

theorem add_compiled_dependency_inv {ctx ctx' : Context} {id : ModuleIdent}
    {v : CompiledDependencyView} {r : Except CompileErr Unit} (hinv : CtxInv ctx)
    (h : ctx.add_compiled_dependency id v = (ctx', r)) : CtxInv ctx' := by
  unfold Context.add_compiled_dependency at h
  split at h <;> cases h
  · exact ctxInv_transfer hinv rfl rfl rfl rfl rfl rfl rfl rfl rfl rfl rfl rfl
      rfl rfl
  · exact hinv

theorem build_index_remapping_inv {ctx : Context}
    {lti : List (BlockLabel × Nat)} (hinv : CtxInv ctx) :
    CtxInv (ctx.build_index_remapping lti).1 := by
  unfold Context.build_index_remapping
  exact { hinv with labels := rfl }

theorem declare_dth_inv {ctx ctx' : Context} {s : QualifiedDataTypeIdent}
    {ab : AbilitySet} {tp : List DataTypeTyParameter} {r : Except CompileErr Nat}
    (hinv : CtxInv ctx)
    (h : ctx.declare_data_type_handle_index_with_abilities s ab tp = (ctx', r)) :
    CtxInv ctx' := by
  cases hmod : ctx.module_handle_index s.module with
  | error e =>
    simp only [Context.declare_data_type_handle_index_with_abilities, hmod] at h
    cases h
    exact hinv
  | ok mod =>
    rcases hb : ctx.identifier_index s.name with ⟨c1, rb⟩
    have hinv1 := identifier_index_inv hinv hb
    cases rb with
    | error e =>
      simp only [Context.declare_data_type_handle_index_with_abilities, hmod,
        hb] at h
      cases h
      exact hinv1
    | ok name =>
      have hinv2 : CtxInv
          { c1 with structs := ainsert c1.structs s ⟨mod, name, ab, tp⟩ } :=
        ctxInv_transfer hinv1 rfl rfl rfl rfl rfl rfl rfl rfl rfl rfl rfl rfl
          rfl rfl
      rcases hg : get_or_add_item c1.data_type_handles
        (⟨mod, name, ab, tp⟩ : DataTypeHandle) with ⟨p, rc⟩
      simp only [Context.declare_data_type_handle_index_with_abilities, hmod,
        hb, hg] at h
      cases h
      exact { hinv2 with
        data_type_handles := get_or_add_item_inv hinv2.data_type_handles hg }

theorem data_type_handle_index_inv {ctx ctx' : Context}
    {s : QualifiedDataTypeIdent} {r : Except CompileErr Nat} (hinv : CtxInv ctx)
    (h : ctx.data_type_handle_index s = (ctx', r)) : CtxInv ctx' := by
  cases hs : alookup ctx.structs s with
  | some sh =>
    cases hp : poolLookup ctx.data_type_handles sh with
    | none =>
      simp only [Context.data_type_handle_index, hs, hp] at h
      cases h
      exact hinv
    | some i =>
      simp only [Context.data_type_handle_index, hs, hp] at h
      cases h
      exact hinv
  | none =>
    cases hdd : ctx.dep_data_type_handle s with
    | error e =>
      simp only [Context.data_type_handle_index, hs, hdd] at h
      cases h
      exact hinv
    | ok pair =>
      rcases pair with ⟨ab, tp⟩
      simp only [Context.data_type_handle_index, hs, hdd] at h
      exact declare_dth_inv hinv h

theorem declare_function_ok_inv {ctx ctx' : Context} {M : ModuleName}
    {f : FunctionName} {sig : FunctionSignature} (hinv : CtxInv ctx)
    (h : ctx.declare_function M f sig = (ctx', .ok ())) : CtxInv ctx' := by
  obtain ⟨mod, name, idPool, pidx, sp, ridx, sp2, hmod, hid, hp, hr, hmax, hc⟩ :=
    declare_function_ok_decomp h
  subst hc
  have hinvId : PoolInv idPool := get_or_add_item_inv hinv.identifiers hid
  have hinvSp : PoolInv sp := get_or_add_item_inv hinv.signatures hp
  have hinvSp2 : PoolInv sp2 := get_or_add_item_inv hinvSp hr
  cases hlk : alookup ctx.function_handles (M, f) with
  | none =>
    have hsiglk : alookup ctx.function_signatures (M, f) = none := by
      have hiso := alookup_of_map_fst_eq hinv.fn_keys (M, f)
      cases halk2 : alookup ctx.function_signatures (M, f) with
      | none => rfl
      | some v =>
        rw [halk2, hlk] at hiso
        simp at hiso
    refine { hinv with
      identifiers := hinvId
      signatures := hinvSp2
      fn_idx := ?_
      fn_keys := ?_ }
    · simp only [hlk]
      rw [ainsert_of_alookup_none _ hlk]
      simp [hinv.fn_idx, List.range_succ]
    · simp only [hlk]
      rw [ainsert_of_alookup_none _ hlk, ainsert_of_alookup_none _ hsiglk]
      simp [hinv.fn_keys]
  | some pair =>
    rcases pair with ⟨h₀, i⟩
    have hsiglk : ∃ s₀, alookup ctx.function_signatures (M, f) = some s₀ := by
      have hiso := alookup_of_map_fst_eq hinv.fn_keys (M, f)
      cases halk2 : alookup ctx.function_signatures (M, f) with
      | none =>
        rw [halk2, hlk] at hiso
        simp at hiso
      | some v => exact ⟨v, rfl⟩
    obtain ⟨s₀, hsiglk⟩ := hsiglk
    refine { hinv with
      identifiers := hinvId
      signatures := hinvSp2
      fn_idx := ?_
      fn_keys := ?_ }
    · simp only [hlk]
      rw [ainsert_snd_snd_of_some _ hlk, ainsert_length_of_some _ hlk]
      exact hinv.fn_idx
    · simp only [hlk]
      rw [ainsert_map_fst_of_alookup_some _ hlk,
        ainsert_map_fst_of_alookup_some _ hsiglk]
      exact hinv.fn_keys

theorem reindex_inv :
    (∀ t : SignatureToken, ∀ (ctx : Context) (dep : ModuleIdent) (c : Context)
      (r : Except CompileErr SignatureToken),
      ctx.reindex_signature_token dep t = (c, r) → CtxInv ctx → CtxInv c) ∧
    (∀ ts : List SignatureToken, ∀ (ctx : Context) (dep : ModuleIdent)
      (c : Context) (r : Except CompileErr (List SignatureToken)),
      ctx.reindex_signature_token_list dep ts = (c, r) → CtxInv ctx →
        CtxInv c) := by
  have hprim : ∀ t₀ : SignatureToken,
      (∀ (ctx : Context) (dep : ModuleIdent),
        ctx.reindex_signature_token dep t₀ = (ctx, .ok t₀)) →
      ∀ (ctx : Context) (dep : ModuleIdent) (c : Context)
        (r : Except CompileErr SignatureToken),
        ctx.reindex_signature_token dep t₀ = (c, r) → CtxInv ctx → CtxInv c := by
    intro t₀ heq ctx dep c r h hinv
    rw [heq ctx dep] at h
    cases h
    exact hinv
  have hcontainer :
      ∀ (mk : SignatureToken → SignatureToken) (t : SignatureToken),
      (∀ (ctx : Context) (dep : ModuleIdent),
        ctx.reindex_signature_token dep (mk t) =
          (match ctx.reindex_signature_token dep t with
            | (c, .ok u) => (c, .ok (mk u))
            | (c, .error e) => (c, .error e))) →
      (∀ (ctx : Context) (dep : ModuleIdent) (c : Context)
        (r : Except CompileErr SignatureToken),
        ctx.reindex_signature_token dep t = (c, r) → CtxInv ctx → CtxInv c) →
      ∀ (ctx : Context) (dep : ModuleIdent) (c : Context)
        (r : Except CompileErr SignatureToken),
        ctx.reindex_signature_token dep (mk t) = (c, r) → CtxInv ctx →
          CtxInv c := by
    intro mk t heq ih ctx dep c r h hinv
    rw [heq ctx dep] at h
    rcases hr : ctx.reindex_signature_token dep t with ⟨c1, r1⟩
    have hinv1 := ih ctx dep c1 r1 hr hinv
    rw [hr] at h
    cases r1 <;> simp only at h <;> cases h <;> exact hinv1
  refine tokId.mutual_induct
    (fun t => ∀ (ctx : Context) (dep : ModuleIdent) (c : Context)
      (r : Except CompileErr SignatureToken),
      ctx.reindex_signature_token dep t = (c, r) → CtxInv ctx → CtxInv c)
    (fun ts => ∀ (ctx : Context) (dep : ModuleIdent) (c : Context)
      (r : Except CompileErr (List SignatureToken)),
      ctx.reindex_signature_token_list dep ts = (c, r) → CtxInv ctx → CtxInv c)
    (hprim _ fun ctx dep => rfl)
    (hprim _ fun ctx dep => rfl)
    (hprim _ fun ctx dep => rfl)
    (hprim _ fun ctx dep => rfl)
    (hprim _ fun ctx dep => rfl)
    (hprim _ fun ctx dep => rfl)
    (hprim _ fun ctx dep => rfl)
    (hprim _ fun ctx dep => rfl)
    (hprim _ fun ctx dep => rfl)
    (fun t ih => hcontainer .Vector t (fun ctx dep => rfl) ih)
    (fun t ih => hcontainer .Reference t (fun ctx dep => rfl) ih)
    (fun t ih => hcontainer .MutableReference t (fun ctx dep => rfl) ih)
    (fun i => hprim _ fun ctx dep => rfl)
    ?_ ?_ ?_ ?_
  · intro i ctx dep c r h hinv
    cases hd : ctx.dependency dep with
    | error e =>
      simp only [Context.reindex_signature_token, hd] at h
      cases h
      exact hinv
    | ok v =>
      rcases hs : v.source_struct_info i with _ | ⟨mid, sn⟩
      · simp only [Context.reindex_signature_token, hd, hs] at h
        cases h
        exact hinv
      · cases ha : ctx.module_alias mid with
        | error e =>
          simp only [Context.reindex_signature_token, hd, hs, ha] at h
          cases h
          exact hinv
        | ok mn =>
          rcases hdi : ctx.data_type_handle_index ⟨mn, sn⟩ with ⟨c1, r1⟩
          have hinv1 := data_type_handle_index_inv hinv hdi
          cases r1 <;>
            simp only [Context.reindex_signature_token, hd, hs, ha, hdi] at h <;>
            cases h <;> exact hinv1
  · intro i args ih ctx dep c r h hinv
    cases hd : ctx.dependency dep with
    | error e =>
      simp only [Context.reindex_signature_token, hd] at h
      cases h
      exact hinv
    | ok v =>
      rcases hs : v.source_struct_info i with _ | ⟨mid, sn⟩
      · simp only [Context.reindex_signature_token, hd, hs] at h
        cases h
        exact hinv
      · cases ha : ctx.module_alias mid with
        | error e =>
          simp only [Context.reindex_signature_token, hd, hs, ha] at h
          cases h
          exact hinv
        | ok mn =>
          rcases hdi : ctx.data_type_handle_index ⟨mn, sn⟩ with ⟨c1, r1⟩
          have hinv1 := data_type_handle_index_inv hinv hdi
          cases r1 with
          | error e =>
            simp only [Context.reindex_signature_token, hd, hs, ha, hdi] at h
            cases h
            exact hinv1
          | ok j =>
            rcases hl : c1.reindex_signature_token_list dep args with ⟨c2, r2⟩
            have hinv2 := ih c1 dep c2 r2 hl hinv1
            cases r2 <;>
              simp only [Context.reindex_signature_token, hd, hs, ha, hdi,
                hl] at h <;> cases h <;> exact hinv2
  · intro ctx dep c r h hinv
    simp only [Context.reindex_signature_token_list] at h
    cases h
    exact hinv
  · intro t ts iht ihts ctx dep c r h hinv
    rcases hr : ctx.reindex_signature_token dep t with ⟨c1, r1⟩
    have hinv1 := iht ctx dep c1 r1 hr hinv
    cases r1 with
    | error e =>
      simp only [Context.reindex_signature_token_list, hr] at h
      cases h
      exact hinv1
    | ok u =>
      rcases hl : c1.reindex_signature_token_list dep ts with ⟨c2, r2⟩
      have hinv2 := ihts c1 dep c2 r2 hl hinv1
      cases r2 <;>
        simp only [Context.reindex_signature_token_list, hr, hl] at h <;>
        cases h <;> exact hinv2

theorem reindex_function_signature_inv {ctx c : Context} {dep : ModuleIdent}
    {orig : FunctionSignature} {r : Except CompileErr FunctionSignature}
    (h : ctx.reindex_function_signature dep orig = (c, r)) (hinv : CtxInv ctx) :
    CtxInv c := by
  rcases hr : ctx.reindex_signature_token_list dep orig.return_ with ⟨c1, r1⟩
  have hinv1 := reindex_inv.2 orig.return_ ctx dep c1 r1 hr hinv
  cases r1 with
  | error e =>
    simp only [Context.reindex_function_signature, hr] at h
    cases h
    exact hinv1
  | ok rets =>
    rcases hp : c1.reindex_signature_token_list dep orig.parameters with ⟨c2, r2⟩
    have hinv2 := reindex_inv.2 orig.parameters c1 dep c2 r2 hp hinv1
    cases r2 <;> simp only [Context.reindex_function_signature, hr, hp] at h <;>
      cases h <;> exact hinv2

theorem dep_function_signature_inv {ctx c : Context} {m : ModuleName}
    {f : FunctionName} {r : Except CompileErr FunctionSignature}
    (h : ctx.dep_function_signature m f = (c, r)) (hinv : CtxInv ctx) :
    CtxInv c := by
  by_cases hself : m = ModuleName.module_self
  · simp only [Context.dep_function_signature, if_pos hself] at h
    cases h
    exact hinv
  · cases hmi : ctx.module_ident m with
    | error e =>
      simp only [Context.dep_function_signature, if_neg hself, hmi] at h
      cases h
      exact hinv
    | ok mid =>
      cases hd : ctx.dependency mid with
      | error e =>
        simp only [Context.dep_function_signature, if_neg hself, hmi, hd] at h
        cases h
        exact hinv
      | ok v =>
        cases hfs : v.function_signature f with
        | none =>
          simp only [Context.dep_function_signature, if_neg hself, hmi, hd,
            hfs] at h
          cases h
          exact hinv
        | some sig =>
          simp only [Context.dep_function_signature, if_neg hself, hmi, hd,
            hfs] at h
          exact reindex_function_signature_inv h hinv

theorem ensure_function_declared_ok_inv {ctx c1 : Context} {m : ModuleName}
    {f : FunctionName} (hinv : CtxInv ctx)
    (he : ctx.ensure_function_declared m f = (c1, .ok ())) : CtxInv c1 := by
  by_cases h1 : (alookup ctx.function_handles (m, f)).isSome
  · simp only [Context.ensure_function_declared, if_pos h1] at he
    cases he
    exact hinv
  · by_cases h2 : (alookup ctx.function_signatures (m, f)).isSome
    · simp only [Context.ensure_function_declared, if_neg h1, if_pos h2] at he
      simp at he
    · rcases hdfs : ctx.dep_function_signature m f with ⟨c2, r2⟩
      have hinv2 := dep_function_signature_inv hdfs hinv
      cases r2 with
      | error e =>
        simp only [Context.ensure_function_declared, if_neg h1, if_neg h2,
          hdfs] at he
        simp at he
      | ok sig =>
        rcases hdf : c2.declare_function m f sig with ⟨c3, r3⟩
        cases r3 with
        | error e =>
          simp only [Context.ensure_function_declared, if_neg h1, if_neg h2,
            hdfs, hdf] at he
          simp at he
        | ok u =>
          cases u
          have hinv3 := declare_function_ok_inv hinv2 hdf
          simp only [Context.ensure_function_declared, if_neg h1, if_neg h2,
            hdfs, hdf] at he
          split at he
          · cases he
            exact hinv3
          · simp at he

theorem function_handle_ok_inv {ctx ctx' : Context} {m : ModuleName}
    {f : FunctionName} {hi : FunctionHandle × Nat} (hinv : CtxInv ctx)
    (h : ctx.function_handle m f = (ctx', .ok hi)) : CtxInv ctx' := by
  rcases he : ctx.ensure_function_declared m f with ⟨c1, r1⟩
  cases r1 with
  | error e =>
    simp only [Context.function_handle, he] at h
    simp at h
  | ok u =>
    cases u
    have hinv1 := ensure_function_declared_ok_inv hinv he
    cases hlk : alookup c1.function_handles (m, f) with
    | none =>
      simp only [Context.function_handle, he, hlk] at h
      simp at h
    | some pair =>
      simp only [Context.function_handle, he, hlk] at h
      cases h
      exact hinv1

theorem ctxInv_of_reachable : ∀ {ctx : Context}, Reachable ctx → CtxInv ctx := by
  intro ctx h
  induction h with
  | init deps => exact new_inv deps
  | declare_import _ hop ih => exact declare_import_inv ih hop
  | declare_friend _ hop ih => exact declare_friend_inv ih hop
  | identifier_index _ hop ih => exact identifier_index_inv ih hop
  | address_index _ hop ih => exact address_index_inv ih hop
  | constant_index _ hop ih => exact constant_index_inv ih hop
  | signature_index _ hop ih => exact signature_index_inv ih hop
  | field_handle_index _ hop ih => exact field_handle_index_inv ih hop
  | struct_instantiation_index _ hop ih =>
    exact struct_instantiation_index_inv ih hop
  | enum_instantiation_index _ hop ih =>
    exact enum_instantiation_index_inv ih hop
  | function_instantiation_index _ hop ih =>
    exact function_instantiation_index_inv ih hop
  | field_instantiation_index _ hop ih =>
    exact field_instantiation_index_inv ih hop
  | label_index _ hop ih => exact label_index_inv ih hop
  | declare_struct_definition_index _ hop ih =>
    exact declare_struct_definition_index_inv ih hop
  | declare_enum_definition_index _ hop ih =>
    exact declare_enum_definition_index_inv ih hop
  | declare_function _ hop ih => exact declare_function_ok_inv ih hop
  | declare_constant _ hop ih => exact declare_constant_inv ih hop
  | declare_field _ ih => exact declare_field_inv ih
  | declare_variant _ ih => exact declare_variant_inv ih
  | declare_data_type_handle_index _ hop ih => exact declare_dth_inv ih hop
  | data_type_handle_index _ hop ih => exact data_type_handle_index_inv ih hop
  | function_handle _ hop ih => exact function_handle_ok_inv ih hop
  | build_index_remapping _ ih => exact build_index_remapping_inv ih
  | set_function_index _ ih => exact set_function_index_inv ih
  | take_dependencies _ ih => exact take_dependencies_inv ih
  | restore_dependencies _ hop ih => exact restore_dependencies_inv ih hop
  | add_compiled_dependency _ hop ih => exact add_compiled_dependency_inv ih hop

/-- C6: after any sequence of successful context operations every simple
pool is dense, so materialization succeeds: each materialized vector has
one slot per distinct interned value with every value at its assigned
index (so the internal density assertions and the handle/signature
cardinality assertion never fire), and the function-handle vector likewise
holds every registered handle at its assigned index. -/
theorem C6_pool_density (ctx : Context) (h : Reachable ctx) :
    ∃ pools, ctx.materialize_pools = some pools ∧
      MaterializedCorrectly ctx.module_handles pools.module_handles ∧
      MaterializedCorrectly ctx.data_type_handles pools.data_type_handles ∧
      MaterializedCorrectly ctx.field_handles pools.field_handles ∧
      MaterializedCorrectly ctx.signatures pools.signatures ∧
      MaterializedCorrectly ctx.identifiers pools.identifiers ∧
      MaterializedCorrectly ctx.address_identifiers pools.address_identifiers ∧
      MaterializedCorrectly ctx.constant_pool pools.constant_pool ∧
      MaterializedCorrectly ctx.function_instantiations
        pools.function_instantiations ∧
      MaterializedCorrectly ctx.struct_instantiations
        pools.struct_def_instantiations ∧
      MaterializedCorrectly ctx.enum_instantiations
        pools.enum_def_instantiations ∧
      MaterializedCorrectly ctx.field_instantiations
        pools.field_instantiations ∧
      pools.function_handles.length = ctx.function_handles.length ∧
      (∀ e ∈ ctx.function_handles,
        pools.function_handles[e.2.2]? = some e.2.1) := by
  have hinv := ctxInv_of_reachable h
  obtain ⟨vfh, hfh, hfhlen, hfhidx⟩ := materialize_pool_spec
    ctx.function_handles.length
    (ctx.function_handles.map fun e => (e.2.1, e.2.2))
    (by rw [List.map_map]; exact hinv.fn_idx)
  obtain ⟨v1, h1, hl1, hi1⟩ := materialize_pool_spec ctx.module_handles.length
    ctx.module_handles hinv.module_handles
  obtain ⟨v2, h2, hl2, hi2⟩ := materialize_pool_spec
    ctx.data_type_handles.length ctx.data_type_handles hinv.data_type_handles
  obtain ⟨v3, h3, hl3, hi3⟩ := materialize_pool_spec ctx.field_handles.length
    ctx.field_handles hinv.field_handles
  obtain ⟨v4, h4, hl4, hi4⟩ := materialize_pool_spec ctx.signatures.length
    ctx.signatures hinv.signatures
  obtain ⟨v5, h5, hl5, hi5⟩ := materialize_pool_spec ctx.identifiers.length
    ctx.identifiers hinv.identifiers
  obtain ⟨v6, h6, hl6, hi6⟩ := materialize_pool_spec
    ctx.address_identifiers.length ctx.address_identifiers
    hinv.address_identifiers
  obtain ⟨v7, h7, hl7, hi7⟩ := materialize_pool_spec ctx.constant_pool.length
    ctx.constant_pool hinv.constant_pool
  obtain ⟨v8, h8, hl8, hi8⟩ := materialize_pool_spec
    ctx.function_instantiations.length ctx.function_instantiations
    hinv.function_instantiations
  obtain ⟨v9, h9, hl9, hi9⟩ := materialize_pool_spec
    ctx.struct_instantiations.length ctx.struct_instantiations
    hinv.struct_instantiations
  obtain ⟨v10, h10, hl10, hi10⟩ := materialize_pool_spec
    ctx.enum_instantiations.length ctx.enum_instantiations
    hinv.enum_instantiations
  obtain ⟨v11, h11, hl11, hi11⟩ := materialize_pool_spec
    ctx.field_instantiations.length ctx.field_instantiations
    hinv.field_instantiations
  have hbal : ctx.function_handles.length = ctx.function_signatures.length := by
    have hkeys := congrArg List.length hinv.fn_keys
    simpa using hkeys
  refine ⟨⟨v1, v2, vfh, v3, v9, v10, v8, v11, v4, v5, v6, v7⟩,
    ?_, ⟨hl1, hi1⟩, ⟨hl2, hi2⟩, ⟨hl3, hi3⟩, ⟨hl4, hi4⟩,
    ⟨hl5, hi5⟩, ⟨hl6, hi6⟩, ⟨hl7, hi7⟩, ⟨hl8, hi8⟩, ⟨hl9, hi9⟩, ⟨hl10, hi10⟩,
    ⟨hl11, hi11⟩, hfhlen, ?_⟩
  · unfold Context.materialize_pools
    rw [if_neg (by omega)]
    simp [materialize_map, hfh, h1, h2, h3, h4, h5, h6, h7, h8, h9, h10, h11]
  · intro e he
    exact hfhidx (e.2.1, e.2.2)
      (List.mem_map_of_mem (fun e => (e.2.1, e.2.2)) he)

/-- C6 (witness): the density theorem applied to the concrete reachable
context obtained by importing module `M` into a fresh context. -/
theorem C6_witness : ctxM.materialize_pools.isSome = true := by
  obtain ⟨pools, hp, _⟩ :=
    C6_pool_density ctxM (Reachable.declare_import (Reachable.init []) rfl)
  simp [hp]
